import Mathlib

/-!
Verification of the eventory workflow editor's simulation engine and
structural-sync controller, shallowly embedded from the TypeScript source
(the useSimulation hook and WorkflowCanvas component).

Node and edge ids are strings; the JS Sets of the simulation state are
modelled as Finsets; the pending setTimeout handles are modelled as an
explicit list of pending timers, each carrying the data the scheduled
closure captured (edge id, target id, and the isTargetTrigger flag
computed at scheduling time).
-/

/-- An edge of the workflow graph (reactflow Edge: id, source, target). -/
structure WEdge where
  id : String
  source : String
  target : String
deriving DecidableEq

/-- A node as seen by the simulation engine: the engine reads only the id,
the type tag and, for policyOutput nodes, data.parentPolicyId and
data.outputId. -/
structure SimNode where
  id : String
  type : String
  parentPolicyId : String
  outputId : String
deriving DecidableEq

/-- The node/edge collections the useSimulation hook closes over. -/
structure Graph where
  nodes : List SimNode
  edges : List WEdge
deriving DecidableEq

/-- All edge targets of the edge collection; used as the bound on the
breadth-first search of getLinkedNodes. -/
def allTargets (edges : List WEdge) : Finset String :=
  (edges.map (fun e => e.target)).toFinset

/-- The worklist loop of getLinkedNodes: pops the queue head, skips it when
already visited, otherwise marks it visited and pushes the targets of its
outgoing edges that are not yet visited, recording them as linked.
Returns the (linkedNodes, visited) pair of the loop's final state. -/
def bfs (edges : List WEdge) (allIds : Finset String)
    (hall : ∀ e ∈ edges, e.target ∈ allIds)
    (visited linked : Finset String) (queue : List String)
    (hq : ∀ x ∈ queue, x ∈ allIds) : Finset String × Finset String :=
  match queue, hq with
  | [], _ => (linked, visited)
  | currentId :: rest, hq =>
    if hvis : currentId ∈ visited then
      bfs edges allIds hall visited linked rest
        (fun x hx => hq x (List.mem_cons_of_mem _ hx))
    else
      let visited' := insert currentId visited
      let newTargets := ((edges.filter (fun e => e.source = currentId)).map
        (fun e => e.target)).filter (fun t => t ∉ visited')
      bfs edges allIds hall visited' (linked ∪ newTargets.toFinset) (rest ++ newTargets)
        (by
          intro x hx
          rcases List.mem_append.1 hx with h1 | h2
          · exact hq x (List.mem_cons_of_mem _ h1)
          · have hx2 := List.mem_filter.1 h2
            rcases List.mem_map.1 hx2.1 with ⟨e, he, hex⟩
            exact hex ▸ hall e (List.mem_of_mem_filter he))
termination_by ((allIds \ visited).card, queue.length)
decreasing_by
  · exact Prod.Lex.right _ (Nat.lt_succ_self _)
  · apply Prod.Lex.left
    apply Finset.card_lt_card
    constructor
    · exact Finset.sdiff_subset_sdiff (le_refl _) (Finset.subset_insert _ _)
    · intro hsub
      have hcur : currentId ∈ allIds \ visited :=
        Finset.mem_sdiff.2 ⟨hq currentId (List.mem_cons_self _ _), hvis⟩
      have := Finset.mem_sdiff.1 (hsub hcur)
      exact this.2 (Finset.mem_insert_self _ _)

/-- getLinkedNodes (useSimulation): all nodes reachable from sourceNodeId by
following outgoing edges, breadth-first, excluding sourceNodeId itself. -/
def getLinkedNodes (g : Graph) (sourceNodeId : String) : Finset String :=
  (bfs g.edges (insert sourceNodeId (allTargets g.edges))
    (fun e he => Finset.mem_insert_of_mem
      (List.mem_toFinset.2 (List.mem_map.2 ⟨e, he, rfl⟩)))
    ∅ ∅ [sourceNodeId]
    (fun x hx => by
      rcases List.mem_singleton.1 hx with h
      exact h ▸ Finset.mem_insert_self _ _)).1

/-- One directed-edge step of the graph: some edge goes from x to y. -/
def edgeStep (edges : List WEdge) (x y : String) : Prop :=
  ∃ e ∈ edges, e.source = x ∧ e.target = y

/-- nodes.find by id, as used throughout the hook. -/
def findNode (g : Graph) (nodeId : String) : Option SimNode :=
  g.nodes.find? (fun n => n.id = nodeId)

/-- The targetNode?.type === 'trigger' check captured by each scheduled
animation-completion closure. -/
def isTriggerTarget (g : Graph) (nodeId : String) : Bool :=
  match findNode g nodeId with
  | some n => n.type == "trigger"
  | none => false

/-- The data captured by one window.setTimeout closure scheduled at the end
of an edge animation. -/
structure Timer where
  edgeId : String
  target : String
  isTargetTrigger : Bool
deriving DecidableEq

def mkTimer (g : Graph) (e : WEdge) : Timer :=
  { edgeId := e.id, target := e.target, isTargetTrigger := isTriggerTarget g e.target }

/-- The simulation state of the useSimulation hook: the six id Sets plus
the list of pending (not yet fired, not yet cancelled) timeouts. -/
@[ext]

structure SimState where
  executedNodes : Finset String
  activeNodes : Finset String
  executedEdges : Finset String
  animatingEdges : Finset String
  waitingForDecision : Finset String
  triggeredOutputNodes : Finset String
  timers : List Timer
deriving DecidableEq

def initialSimState : SimState :=
  { executedNodes := ∅, activeNodes := ∅, executedEdges := ∅,
    animatingEdges := ∅, waitingForDecision := ∅, triggeredOutputNodes := ∅,
    timers := [] }

/-- resetLinkedNodes: cancel all pending timeouts, remove the nodes linked
to the trigger from the node state sets, and remove the edges whose source
is linked or is the trigger itself from the edge state sets. -/
def resetLinkedNodes (g : Graph) (triggerNodeId : String) (s : SimState) : SimState :=
  let linkedNodes := getLinkedNodes g triggerNodeId
  let linkedEdgeIds := ((g.edges.filter
    (fun e => e.source ∈ linkedNodes ∨ e.source = triggerNodeId)).map
      (fun e => e.id)).toFinset
  { s with
    timers := []
    executedNodes := s.executedNodes \ linkedNodes
    activeNodes := s.activeNodes \ linkedNodes
    waitingForDecision := s.waitingForDecision \ linkedNodes
    executedEdges := s.executedEdges \ linkedEdgeIds
    animatingEdges := s.animatingEdges \ linkedEdgeIds }

/-- handleExecuteNode: a policy node merely enters waitingForDecision;
any other id is marked executed, removed from activeNodes, and its
outgoing edges start animating, one pending timeout per edge. -/
def handleExecuteNode (g : Graph) (nodeIdToExecute : String) (s : SimState) : SimState :=
  let nodeToExecute := findNode g nodeIdToExecute
  if (nodeToExecute.map (fun n => n.type)) = some "policy" then
    { s with waitingForDecision := insert nodeIdToExecute s.waitingForDecision }
  else
    let s1 := { s with
      executedNodes := insert nodeIdToExecute s.executedNodes
      activeNodes := s.activeNodes.erase nodeIdToExecute }
    let outgoingEdges := g.edges.filter (fun e => e.source = nodeIdToExecute)
    if outgoingEdges.length > 0 then
      { s1 with
        animatingEdges := s1.animatingEdges ∪ (outgoingEdges.map (fun e => e.id)).toFinset
        timers := s1.timers ++ outgoingEdges.map (mkTimer g) }
    else s1

/-- The nodes.find locating the PolicyOutputNode of a (parentPolicyId,
outputId) pair. -/
def findPolicyOutput (g : Graph) (parentPolicyId outputId : String) : Option SimNode :=
  g.nodes.find? (fun n =>
    n.type = "policyOutput" ∧ n.parentPolicyId = parentPolicyId ∧ n.outputId = outputId)

/-- All PolicyOutputNodes of one PolicyNode. -/
def policyOutputsOf (g : Graph) (parentPolicyId : String) : List SimNode :=
  g.nodes.filter (fun n => n.type = "policyOutput" ∧ n.parentPolicyId = parentPolicyId)

/-- The edge ids collected for one policy output inside the
handlePolicyDecision reset loop. -/
def linkedEdgeIdsOf (g : Graph) (po : SimNode) : Finset String :=
  ((g.edges.filter (fun e =>
    e.source ∈ getLinkedNodes g po.id ∨ e.target ∈ getLinkedNodes g po.id ∨
      e.source = po.id)).map (fun e => e.id)).toFinset

/-- handlePolicyDecision: no-op when no PolicyOutputNode matches; otherwise
resets the nodes linked to every sibling output and their incident edges,
moves the parent policy from waitingForDecision to executed, and animates
the first edge sourced at the chosen output (if any), scheduling its
completion. -/
def handlePolicyDecision (g : Graph) (parentPolicyId outputId : String)
    (s : SimState) : SimState :=
  match findPolicyOutput g parentPolicyId outputId with
  | none => s
  | some outputNode =>
    let allOutputNodes := policyOutputsOf g parentPolicyId
    let allLinkedNodes := allOutputNodes.foldl
      (fun acc po => acc ∪ getLinkedNodes g po.id) ∅
    let allLinkedEdgeIds := allOutputNodes.foldl
      (fun acc po => acc ∪ linkedEdgeIdsOf g po) ∅
    let s1 := { s with
      executedNodes := insert parentPolicyId (s.executedNodes \ allLinkedNodes)
      activeNodes := s.activeNodes \ allLinkedNodes
      waitingForDecision := (s.waitingForDecision \ allLinkedNodes).erase parentPolicyId
      executedEdges := s.executedEdges \ allLinkedEdgeIds
      animatingEdges := s.animatingEdges \ allLinkedEdgeIds }
    match g.edges.find? (fun e => e.source = outputNode.id) with
    | none => s1
    | some chosenEdge =>
      { s1 with
        animatingEdges := insert chosenEdge.id s1.animatingEdges
        timers := s1.timers ++ [mkTimer g chosenEdge] }

/-- handleTrigger: reset the linked nodes, then execute the trigger. -/
def handleTrigger (g : Graph) (triggerId : String) (s : SimState) : SimState :=
  handleExecuteNode g triggerId (resetLinkedNodes g triggerId s)

/-- handleTriggerFromOutput: same reset-then-execute pattern, also recording
the output node in triggeredOutputNodes. -/
def handleTriggerFromOutput (g : Graph) (outputNodeId : String) (s : SimState) : SimState :=
  let s1 := resetLinkedNodes g outputNodeId s
  handleExecuteNode g outputNodeId
    { s1 with triggeredOutputNodes := insert outputNodeId s1.triggeredOutputNodes }

/-- handleResetSimulation: cancel all timeouts and clear every set. -/
def handleResetSimulation (_ : SimState) : SimState :=
  initialSimState

/-- The body of one scheduled timeout: move the edge from animating to
executed and, unless the captured target was a trigger node, execute the
target. -/
def fireTimerAction (g : Graph) (t : Timer) (s : SimState) : SimState :=
  let s1 := { s with
    animatingEdges := s.animatingEdges.erase t.edgeId
    executedEdges := insert t.edgeId s.executedEdges }
  if t.isTargetTrigger then s1 else handleExecuteNode g t.target s1

/-- Firing of the i-th pending timeout: it leaves the pending list and its
callback runs. -/
def fireTimer (g : Graph) (i : Nat) (s : SimState) : SimState :=
  match s.timers[i]? with
  | none => s
  | some t => fireTimerAction g t { s with timers := s.timers.eraseIdx i }

/-- The operations the UI can invoke on the engine, plus timer completion. -/
inductive Op where
  | execNode (nodeId : String)
  | decision (parentPolicyId outputId : String)
  | trigger (nodeId : String)
  | triggerFromOutput (nodeId : String)
  | reset
  | fire (i : Nat)
deriving DecidableEq

def applyOp (g : Graph) (op : Op) (s : SimState) : SimState :=
  match op with
  | .execNode nodeId => handleExecuteNode g nodeId s
  | .decision p o => handlePolicyDecision g p o s
  | .trigger nodeId => handleTrigger g nodeId s
  | .triggerFromOutput nodeId => handleTriggerFromOutput g nodeId s
  | .reset => handleResetSimulation s
  | .fire i => fireTimer g i s

def runOps (g : Graph) (ops : List Op) (s : SimState) : SimState :=
  ops.foldl (fun s op => applyOp g op s) s

/-- A simulation state reachable from the empty initial state by engine
operations and timer completions. -/
def ReachableState (g : Graph) (s : SimState) : Prop :=
  ∃ ops : List Op, s = runOps g ops initialSimState

def gC5 : Graph :=
  { nodes := [{ id := "p", type := "policy", parentPolicyId := "", outputId := "" }],
    edges := [] }

def gC3empty : Graph := { nodes := [], edges := [] }

def execFresh (g : Graph) (nodeId : String) (s : SimState) : Prop :=
  ∀ e ∈ g.edges, e.source = nodeId → e.id ∉ s.executedEdges

def stepOk (g : Graph) (op : Op) (s : SimState) : Prop :=
  match op with
  | .execNode nodeId => execFresh g nodeId s
  | .fire i =>
    match s.timers[i]? with
    | some t => t.isTargetTrigger = true ∨
        (∀ e ∈ g.edges, e.source = t.target → e.id ∉ insert t.edgeId s.executedEdges)
    | none => True
  | _ => True

def gC4 : Graph :=
  { nodes := [{ id := "A", type := "step", parentPolicyId := "", outputId := "" }],
    edges := [{ id := "eAA", source := "A", target := "A" }] }

def sC4 : SimState := runOps gC4 [Op.execNode "A", Op.fire 0] initialSimState

/-- The union of the downstream-reachable sets of every PolicyOutput
sibling of the parent policy (spec wording of the reset set). -/
def downstreamUnion (g : Graph) (parentPolicyId : String) : Finset String :=
  (policyOutputsOf g parentPolicyId).foldl
    (fun acc po => acc ∪ getLinkedNodes g po.id) ∅

/-- The edges incident to the downstream union or sourced at any sibling
output (spec wording of the reset edge set). -/
def incidentOrSiblingEdgeIds (g : Graph) (parentPolicyId : String) : Finset String :=
  ((g.edges.filter (fun e =>
    e.source ∈ downstreamUnion g parentPolicyId ∨
    e.target ∈ downstreamUnion g parentPolicyId ∨
    e.source ∈ (policyOutputsOf g parentPolicyId).map (fun po => po.id))).map
      (fun e => e.id)).toFinset

def gC2 : Graph :=
  { nodes :=
      [{ id := "p", type := "policy", parentPolicyId := "", outputId := "" },
       { id := "o1", type := "policyOutput", parentPolicyId := "p", outputId := "yes" },
       { id := "o2", type := "policyOutput", parentPolicyId := "p", outputId := "no" },
       { id := "x", type := "step", parentPolicyId := "", outputId := "" },
       { id := "y", type := "step", parentPolicyId := "", outputId := "" }],
    edges :=
      [{ id := "e1", source := "o1", target := "x" },
       { id := "e2", source := "o2", target := "y" }] }

def oC2 : SimNode :=
  { id := "o1", type := "policyOutput", parentPolicyId := "p", outputId := "yes" }

def gC10 : Graph :=
  { nodes :=
      [{ id := "p", type := "policy", parentPolicyId := "", outputId := "" },
       { id := "o1", type := "policyOutput", parentPolicyId := "p", outputId := "yes" },
       { id := "x", type := "step", parentPolicyId := "", outputId := "" },
       { id := "y", type := "step", parentPolicyId := "", outputId := "" }],
    edges :=
      [{ id := "e1", source := "o1", target := "x" },
       { id := "e4", source := "o1", target := "y" }] }

def oC10 : SimNode :=
  { id := "o1", type := "policyOutput", parentPolicyId := "p", outputId := "yes" }

/-! Embedding of the WorkflowCanvas structural-sync controller.  Positions
are modelled on the integers (every coordinate the layout rule produces
from integer inputs is exact: the halved spacing term is always even). -/

/-- A 2D position. -/
structure Pos where
  x : Int
  y : Int
deriving DecidableEq

structure PolicyOutput where
  id : String
  label : String
  position : String := "right"
deriving DecidableEq

structure CNodeData where
  label : String := ""
  outputs : List PolicyOutput := []
  outputNodeIds : List String := []
  parentPolicyId : String := ""
  outputId : String := ""
  relativePosition : Pos := { x := 0, y := 0 }
deriving DecidableEq

structure CNode where
  id : String
  type : String
  position : Pos
  data : CNodeData
deriving DecidableEq

structure Canvas where
  nodes : List CNode
  edges : List WEdge
  nextId : Nat
deriving DecidableEq

/-- The output ids currently declared on a policy node. -/
def existingOutputIdsOf (policyNode : CNode) : List String :=
  policyNode.data.outputs.map (fun o => o.id)

/-- Outputs present in the new list but absent from the old one. -/
def addedOutputsOf (policyNode : CNode) (newOutputs : List PolicyOutput) :
    List PolicyOutput :=
  newOutputs.filter (fun o => o.id ∉ existingOutputIdsOf policyNode)

/-- Output ids present in the old list but absent from the new one. -/
def removedOutputIdsOf (policyNode : CNode) (newOutputs : List PolicyOutput) :
    List String :=
  (existingOutputIdsOf policyNode).filter (fun i => i ∉ newOutputs.map (fun o => o.id))

/-- The PolicyOutput nodes to delete: children of the policy bound to a
removed output id. -/
def outputNodesToRemoveOf (c : Canvas) (policyNodeId : String) (policyNode : CNode)
    (newOutputs : List PolicyOutput) : List CNode :=
  c.nodes.filter (fun n =>
    n.type = "policyOutput" ∧ n.data.parentPolicyId = policyNodeId ∧
      n.data.outputId ∈ removedOutputIdsOf policyNode newOutputs)

def nodeIdsToRemoveOf (c : Canvas) (policyNodeId : String) (policyNode : CNode)
    (newOutputs : List PolicyOutput) : Finset String :=
  ((outputNodesToRemoveOf c policyNodeId policyNode newOutputs).map
    (fun n => n.id)).toFinset

/-- The freshly spawned PolicyOutput nodes, one per added output, with ids
drawn from the monotonic node id generator and positions given by the
fixed layout rule. -/
def newOutputNodesOf (c : Canvas) (policyNodeId : String) (policyNode : CNode)
    (newOutputs : List PolicyOutput) : List CNode :=
  (addedOutputsOf policyNode newOutputs).enum.map (fun (p : Nat × PolicyOutput) =>
    let outputNodeId := "node_" ++ toString (c.nextId + p.1)
    let yOffset := ((policyNode.data.outputNodeIds.length : Int) -
      ((nodeIdsToRemoveOf c policyNodeId policyNode newOutputs).card : Int) +
        (p.1 : Int)) * 60
    let relativeX : Int := 180
    let relativeY := yOffset - (((newOutputs.length : Int) - 1) * 60) / 2
    { id := outputNodeId
      type := "policyOutput"
      position := { x := policyNode.position.x + relativeX,
                    y := policyNode.position.y + relativeY }
      data := { label := p.2.label
                parentPolicyId := policyNodeId
                outputId := p.2.id
                relativePosition := { x := relativeX, y := relativeY } } })

/-- The per-node update applied to the surviving nodes: the policy node
receives the new outputs list and its recomputed outputNodeIds; a
surviving PolicyOutput child of the policy receives the new label of its
output when it changed; every other node passes through unchanged. -/
def updatedNodeOf (c : Canvas) (policyNodeId : String) (policyNode : CNode)
    (newOutputs : List PolicyOutput) (n : CNode) : CNode :=
  if n.id = policyNodeId then
    { n with data := { n.data with
        outputs := newOutputs
        outputNodeIds :=
          (policyNode.data.outputNodeIds.filter
            (fun i => i ∉ nodeIdsToRemoveOf c policyNodeId policyNode newOutputs)) ++
            (newOutputNodesOf c policyNodeId policyNode newOutputs).map
              (fun m => m.id) } }
  else if n.type = "policyOutput" ∧ n.data.parentPolicyId = policyNodeId then
    match newOutputs.find? (fun o => o.id = n.data.outputId) with
    | some matchingOutput =>
      if matchingOutput.label ≠ n.data.label then
        { n with data := { n.data with label := matchingOutput.label } }
      else n
    | none => n
  else n

/-- handleOutputsChange (WorkflowCanvas): diffs newOutputs against the
policy node's current outputs by output id, deletes the PolicyOutput nodes
of removed ids together with their incident edges, spawns one node per
added id, copies changed labels onto surviving children, and rewrites the
policy's outputs and outputNodeIds. -/
def handleOutputsChange (c : Canvas) (policyNodeId : String)
    (newOutputs : List PolicyOutput) : Canvas :=
  match c.nodes.find? (fun n => n.id = policyNodeId) with
  | none => c
  | some policyNode =>
    if policyNode.type ≠ "policy" then c
    else
      { nodes :=
          ((c.nodes.filter (fun n =>
            n.id ∉ nodeIdsToRemoveOf c policyNodeId policyNode newOutputs)).map
              (updatedNodeOf c policyNodeId policyNode newOutputs)) ++
            newOutputNodesOf c policyNodeId policyNode newOutputs
        edges :=
          if 0 < (nodeIdsToRemoveOf c policyNodeId policyNode newOutputs).card then
            c.edges.filter (fun e =>
              e.source ∉ nodeIdsToRemoveOf c policyNodeId policyNode newOutputs ∧
              e.target ∉ nodeIdsToRemoveOf c policyNodeId policyNode newOutputs)
          else c.edges
        nextId := c.nextId + (addedOutputsOf policyNode newOutputs).length }

/-- The remove-handling part of handleNodesChange (WorkflowCanvas): for a
batch of node-removal changes, each removed policy node contributes its
outputNodeIds (those not already in the batch) as additional removals, and
the node collection drops every node of the extended batch.  The function
does not touch the edge collection: handleNodesChange never calls
setEdges. -/
def handleNodesChangeRemove (c : Canvas) (removeIds : List String) : Canvas :=
  let nodeIdsToRemove := removeIds.toFinset
  let additionalChanges := removeIds.flatMap (fun changeId =>
    match c.nodes.find? (fun n => n.id = changeId) with
    | some node =>
      if node.type = "policy" then
        node.data.outputNodeIds.filter (fun oid => oid ∉ nodeIdsToRemove)
      else []
    | none => [])
  { c with nodes := c.nodes.filter (fun n =>
      n.id ∉ removeIds ∧ n.id ∉ additionalChanges) }

def p1C9 : CNode :=
  { id := "p1", type := "policy", position := { x := 0, y := 0 },
    data := { label := "P", outputs := [{ id := "yes", label := "Yes" }],
              outputNodeIds := ["o1"] } }

def cC9 : Canvas :=
  { nodes :=
      [p1C9,
       { id := "o1", type := "policyOutput", position := { x := 180, y := 0 },
         data := { label := "Yes", parentPolicyId := "p1", outputId := "yes" } },
       { id := "x", type := "step", position := { x := 400, y := 0 },
         data := { label := "X" } }],
    edges := [{ id := "e1", source := "o1", target := "x" }],
    nextId := 5 }

def gC7 : Graph :=
  { nodes := [{ id := "a", type := "step", parentPolicyId := "", outputId := "" },
              { id := "b", type := "step", parentPolicyId := "", outputId := "" }],
    edges := [{ id := "e", source := "a", target := "b" }] }

def gC6 : Graph :=
  { nodes := [{ id := "A", type := "step", parentPolicyId := "", outputId := "" },
              { id := "B", type := "trigger", parentPolicyId := "", outputId := "" }],
    edges := [{ id := "eAB", source := "A", target := "B" }] }

def pC8 : CNode :=
  { id := "p", type := "policy", position := { x := 0, y := 0 },
    data := { label := "P",
              outputs := [{ id := "yes", label := "Yes" },
                          { id := "no", label := "No" }],
              outputNodeIds := ["o1", "o2"] } }

def o1C8 : CNode :=
  { id := "o1", type := "policyOutput", position := { x := 180, y := -30 },
    data := { label := "Yes", parentPolicyId := "p", outputId := "yes" } }

def o2C8 : CNode :=
  { id := "o2", type := "policyOutput", position := { x := 180, y := 30 },
    data := { label := "No", parentPolicyId := "p", outputId := "no" } }

def cC8 : Canvas :=
  { nodes := [pC8, o1C8, o2C8,
      { id := "x", type := "step", position := { x := 400, y := 0 },
        data := { label := "X" } }],
    edges := [{ id := "e2", source := "o2", target := "x" }],
    nextId := 7 }

def newOutsC8 : List PolicyOutput :=
  [{ id := "yes", label := "Yes" }, { id := "maybe", label := "Maybe" }]

lemma bfs_visited_mono (edges : List WEdge) (allIds : Finset String)
    (hall : ∀ e ∈ edges, e.target ∈ allIds) :
    ∀ (visited linked : Finset String) (queue : List String)
      (hq : ∀ x ∈ queue, x ∈ allIds),
      visited ⊆ (bfs edges allIds hall visited linked queue hq).2 := by
  intro visited linked queue hq
  induction visited, linked, queue, hq using bfs.induct edges allIds hall with
  | case1 visited linked h1 h2 =>
    rw [bfs]
  | case2 visited linked currentId rest hq hvis hdup =>
    rename_i ih
    rw [bfs, dif_pos hvis]
    exact ih
  | case3 visited linked currentId rest hq hvis visited2 newTargets hdup =>
    rename_i ih
    rw [bfs, dif_neg hvis]
    exact fun x hx => ih (Finset.mem_insert_of_mem hx)

lemma bfs_queue_visited (edges : List WEdge) (allIds : Finset String)
    (hall : ∀ e ∈ edges, e.target ∈ allIds) :
    ∀ (visited linked : Finset String) (queue : List String)
      (hq : ∀ x ∈ queue, x ∈ allIds),
      ∀ x ∈ queue, x ∈ (bfs edges allIds hall visited linked queue hq).2 := by
  intro visited linked queue hq
  induction visited, linked, queue, hq using bfs.induct edges allIds hall with
  | case1 visited linked h1 h2 =>
    intro x hx
    exact absurd hx (List.not_mem_nil x)
  | case2 visited linked currentId rest hq hvis hdup =>
    rename_i ih
    intro x hx
    rw [bfs, dif_pos hvis]
    rcases List.mem_cons.1 hx with h | h
    · exact bfs_visited_mono edges allIds hall _ _ _ _ (h ▸ hvis)
    · exact ih x h
  | case3 visited linked currentId rest hq hvis visited2 newTargets hdup =>
    rename_i ih
    intro x hx
    rw [bfs, dif_neg hvis]
    rcases List.mem_cons.1 hx with h | h
    · exact bfs_visited_mono edges allIds hall _ _ _ _
        (h ▸ Finset.mem_insert_self _ _)
    · exact ih x (List.mem_append_left _ h)

lemma bfs_closed (edges : List WEdge) (allIds : Finset String)
    (hall : ∀ e ∈ edges, e.target ∈ allIds) :
    ∀ (visited linked : Finset String) (queue : List String)
      (hq : ∀ x ∈ queue, x ∈ allIds),
      (∀ v ∈ visited, ∀ e ∈ edges, e.source = v →
        (e.target ∈ visited ∨ e.target ∈ queue)) →
      ∀ v ∈ (bfs edges allIds hall visited linked queue hq).2,
        ∀ e ∈ edges, e.source = v →
          e.target ∈ (bfs edges allIds hall visited linked queue hq).2 := by
  intro visited linked queue hq
  induction visited, linked, queue, hq using bfs.induct edges allIds hall with
  | case1 visited linked h1 h2 =>
    intro hinv v hv e he hsrc
    rw [bfs] at hv ⊢
    rcases hinv v hv e he hsrc with h | h
    · exact h
    · exact absurd h (List.not_mem_nil _)
  | case2 visited linked currentId rest hq hvis hdup =>
    rename_i ih
    intro hinv
    rw [bfs, dif_pos hvis]
    apply ih
    intro v hv e he hsrc
    rcases hinv v hv e he hsrc with h | h
    · exact Or.inl h
    · rcases List.mem_cons.1 h with h2 | h2
      · exact Or.inl (h2 ▸ hvis)
      · exact Or.inr h2
  | case3 visited linked currentId rest hq hvis visited2 newTargets hdup =>
    rename_i ih
    intro hinv
    rw [bfs, dif_neg hvis]
    apply ih
    intro v hv e he hsrc
    rcases Finset.mem_insert.1 hv with hcur | hold
    · by_cases ht : e.target ∈ insert currentId visited
      · exact Or.inl ht
      · refine Or.inr (List.mem_append_right _ ?_)
        refine List.mem_filter.2 ⟨List.mem_map.2 ⟨e, List.mem_filter.2 ⟨he, ?_⟩, rfl⟩, ?_⟩
        · exact decide_eq_true (hcur ▸ hsrc)
        · exact decide_eq_true ht
    · rcases hinv v hold e he hsrc with h | h
      · exact Or.inl (Finset.mem_insert_of_mem h)
      · rcases List.mem_cons.1 h with h2 | h2
        · exact Or.inl (h2 ▸ Finset.mem_insert_self _ _)
        · exact Or.inr (List.mem_append_left _ h2)

lemma bfs_visited_in_linked (edges : List WEdge) (allIds : Finset String)
    (hall : ∀ e ∈ edges, e.target ∈ allIds) (src : String) :
    ∀ (visited linked : Finset String) (queue : List String)
      (hq : ∀ x ∈ queue, x ∈ allIds),
      visited ⊆ insert src linked →
      (∀ x ∈ queue, x ∈ insert src linked) →
      (bfs edges allIds hall visited linked queue hq).2 ⊆
        insert src (bfs edges allIds hall visited linked queue hq).1 := by
  intro visited linked queue hq
  induction visited, linked, queue, hq using bfs.induct edges allIds hall with
  | case1 visited linked h1 h2 =>
    intro hv hque
    rw [bfs]
    exact hv
  | case2 visited linked currentId rest hq hvis hdup =>
    rename_i ih
    intro hv hque
    rw [bfs, dif_pos hvis]
    exact ih hv (fun x hx => hque x (List.mem_cons_of_mem _ hx))
  | case3 visited linked currentId rest hq hvis visited2 newTargets hdup =>
    rename_i ih
    intro hv hque
    rw [bfs, dif_neg hvis]
    apply ih
    · intro x hx
      rcases Finset.mem_insert.1 hx with h | h
      · rcases Finset.mem_insert.1 (hque currentId (List.mem_cons_self _ _)) with
          h2 | h2
        · exact h ▸ (h2 ▸ Finset.mem_insert_self _ _)
        · exact Finset.mem_insert_of_mem (Finset.mem_union_left _ (h ▸ h2))
      · rcases Finset.mem_insert.1 (hv h) with h2 | h2
        · exact h2 ▸ Finset.mem_insert_self _ _
        · exact Finset.mem_insert_of_mem (Finset.mem_union_left _ h2)
    · intro x hx
      rcases List.mem_append.1 hx with h | h
      · rcases Finset.mem_insert.1 (hque x (List.mem_cons_of_mem _ h)) with h2 | h2
        · exact h2 ▸ Finset.mem_insert_self _ _
        · exact Finset.mem_insert_of_mem (Finset.mem_union_left _ h2)
      · exact Finset.mem_insert_of_mem
          (Finset.mem_union_right _ (List.mem_toFinset.2 h))

lemma bfs_linked_reach (edges : List WEdge) (allIds : Finset String)
    (hall : ∀ e ∈ edges, e.target ∈ allIds) :
    ∀ (visited linked : Finset String) (queue : List String)
      (hq : ∀ x ∈ queue, x ∈ allIds),
      ∀ t ∈ (bfs edges allIds hall visited linked queue hq).1,
        t ∈ linked ∨ ∃ q ∈ queue, Relation.TransGen (edgeStep edges) q t := by
  intro visited linked queue hq
  induction visited, linked, queue, hq using bfs.induct edges allIds hall with
  | case1 visited linked h1 h2 =>
    intro t ht
    rw [bfs] at ht
    exact Or.inl ht
  | case2 visited linked currentId rest hq hvis hdup =>
    rename_i ih
    intro t ht
    rw [bfs, dif_pos hvis] at ht
    rcases ih t ht with h | ⟨q, hq2, htg⟩
    · exact Or.inl h
    · exact Or.inr ⟨q, List.mem_cons_of_mem _ hq2, htg⟩
  | case3 visited linked currentId rest hq hvis visited2 newTargets hdup =>
    rename_i ih
    intro t ht
    rw [bfs, dif_neg hvis] at ht
    have hstep : ∀ x ∈ newTargets, edgeStep edges currentId x := by
      intro x hx
      have hx2 := List.mem_filter.1 hx
      rcases List.mem_map.1 hx2.1 with ⟨e, he, hex⟩
      have he2 := List.mem_filter.1 he
      exact ⟨e, he2.1, of_decide_eq_true he2.2, hex⟩
    rcases ih t ht with h | ⟨q, hq2, htg⟩
    · rcases Finset.mem_union.1 h with h2 | h2
      · exact Or.inl h2
      · exact Or.inr ⟨currentId, List.mem_cons_self _ _,
          Relation.TransGen.single (hstep t (List.mem_toFinset.1 h2))⟩
    · rcases List.mem_append.1 hq2 with h2 | h2
      · exact Or.inr ⟨q, List.mem_cons_of_mem _ h2, htg⟩
      · exact Or.inr ⟨currentId, List.mem_cons_self _ _,
          Relation.TransGen.head (hstep q h2) htg⟩

lemma bfs_linked_avoid (edges : List WEdge) (allIds : Finset String)
    (hall : ∀ e ∈ edges, e.target ∈ allIds) :
    ∀ (visited linked : Finset String) (queue : List String)
      (hq : ∀ x ∈ queue, x ∈ allIds),
      ∀ t ∈ (bfs edges allIds hall visited linked queue hq).1,
        t ∈ linked ∨ t ∉ visited := by
  intro visited linked queue hq
  induction visited, linked, queue, hq using bfs.induct edges allIds hall with
  | case1 visited linked h1 h2 =>
    intro t ht
    rw [bfs] at ht
    exact Or.inl ht
  | case2 visited linked currentId rest hq hvis hdup =>
    rename_i ih
    intro t ht
    rw [bfs, dif_pos hvis] at ht
    exact ih t ht
  | case3 visited linked currentId rest hq hvis visited2 newTargets hdup =>
    rename_i ih
    intro t ht
    rw [bfs, dif_neg hvis] at ht
    rcases ih t ht with h | h
    · rcases Finset.mem_union.1 h with h2 | h2
      · exact Or.inl h2
      · refine Or.inr ?_
        have := (List.mem_filter.1 (List.mem_toFinset.1 h2)).2
        intro hmem
        exact (of_decide_eq_true this) (Finset.mem_insert_of_mem hmem)
    · exact Or.inr (fun hmem => h (Finset.mem_insert_of_mem hmem))

/-- Reachability contract of getLinkedNodes: membership is exactly
"reachable from sourceNodeId by at least one edge, and distinct from
sourceNodeId itself". -/
lemma getLinkedNodes_mem (g : Graph) (src t : String) :
    t ∈ getLinkedNodes g src ↔
      t ≠ src ∧ Relation.TransGen (edgeStep g.edges) src t := by
  constructor
  · intro ht
    constructor
    · rw [getLinkedNodes] at ht
      rw [bfs, dif_neg (Finset.not_mem_empty src)] at ht
      rcases bfs_linked_avoid _ _ _ _ _ _ _ t ht with h | h
      · rcases Finset.mem_union.1 h with h2 | h2
        · exact absurd h2 (Finset.not_mem_empty t)
        · have := (List.mem_filter.1 (List.mem_toFinset.1 h2)).2
          intro heq
          exact (of_decide_eq_true this) (heq ▸ Finset.mem_insert_self _ _)
      · intro heq
        exact h (heq ▸ Finset.mem_insert_self _ _)
    · rw [getLinkedNodes] at ht
      rcases bfs_linked_reach _ _ _ _ _ _ _ t ht with h | ⟨q, hq2, htg⟩
      · exact absurd h (Finset.not_mem_empty t)
      · exact (List.mem_singleton.1 hq2) ▸ htg
  · rintro ⟨hne, htg⟩
    rw [getLinkedNodes]
    have hclosed := bfs_closed g.edges (insert src (allTargets g.edges))
      (fun e he => Finset.mem_insert_of_mem
        (List.mem_toFinset.2 (List.mem_map.2 ⟨e, he, rfl⟩)))
      ∅ ∅ [src]
      (fun x hx => by
        rcases List.mem_singleton.1 hx with h
        exact h ▸ Finset.mem_insert_self _ _)
      (fun v hv => absurd hv (Finset.not_mem_empty v))
    have hsrcmem := bfs_queue_visited g.edges (insert src (allTargets g.edges))
      (fun e he => Finset.mem_insert_of_mem
        (List.mem_toFinset.2 (List.mem_map.2 ⟨e, he, rfl⟩)))
      ∅ ∅ [src]
      (fun x hx => by
        rcases List.mem_singleton.1 hx with h
        exact h ▸ Finset.mem_insert_self _ _)
      src (List.mem_singleton.2 rfl)
    have hvis : t ∈ (bfs g.edges (insert src (allTargets g.edges))
        (fun e he => Finset.mem_insert_of_mem
          (List.mem_toFinset.2 (List.mem_map.2 ⟨e, he, rfl⟩)))
        ∅ ∅ [src]
        (fun x hx => by
          rcases List.mem_singleton.1 hx with h
          exact h ▸ Finset.mem_insert_self _ _)).2 := by
      clear hne
      induction htg with
      | single hstep =>
        rcases hstep with ⟨e, he, hs, htr⟩
        exact htr ▸ hclosed src hsrcmem e he hs
      | tail htg2 hstep ih =>
        rcases hstep with ⟨e, he, hs, htr⟩
        exact htr ▸ hclosed _ ih e he hs
    have hsub := bfs_visited_in_linked g.edges (insert src (allTargets g.edges))
      (fun e he => Finset.mem_insert_of_mem
        (List.mem_toFinset.2 (List.mem_map.2 ⟨e, he, rfl⟩)))
      src ∅ ∅ [src]
      (fun x hx => by
        rcases List.mem_singleton.1 hx with h
        exact h ▸ Finset.mem_insert_self _ _)
      (Finset.empty_subset _)
      (fun x hx => (List.mem_singleton.1 hx) ▸ Finset.mem_insert_self _ _)
    rcases Finset.mem_insert.1 (hsub hvis) with h | h
    · exact absurd h hne
    · exact h

/-- A node with no outgoing edge has an empty linked set. -/
lemma getLinkedNodes_no_out (g : Graph) (src : String)
    (h : ∀ e ∈ g.edges, e.source ≠ src) : getLinkedNodes g src = ∅ := by
  apply Finset.eq_empty_iff_forall_not_mem.2
  intro t ht
  have h2 := ((getLinkedNodes_mem g src t).1 ht).2
  rcases (Relation.TransGen.head'_iff).1 h2 with ⟨b, hstep, _⟩
  rcases hstep with ⟨e, he, hs, _⟩
  exact h e he hs

lemma purge_insert_purge (T : String) (X L : Finset String) :
    insert T ((insert T X) \ L) = insert T (X \ L) := by
  ext x
  simp only [Finset.mem_insert, Finset.mem_sdiff]
  tauto

lemma erase_sdiff_comm (T : String) (X L : Finset String) :
    (X.erase T) \ L = (X \ L).erase T := by
  ext x
  simp only [Finset.mem_erase, Finset.mem_sdiff]
  tauto

/-- C1: re-trigger is idempotent. Calling trigger(T) a second time before
any timer of the first call has fired (the first call's timers are all
still pending, and firing none of them is exactly composing the two calls)
cancels the stale timers, purges the downstream-reachable set of T and the
edges sourced at T or inside that set from every simulation-state set, and
produces exactly the state of a single trigger(T) call from the original
pre-first-call state. -/
theorem C1_retrigger_idempotent (g : Graph) (triggerId : String) (s : SimState) :
    handleTrigger g triggerId (handleTrigger g triggerId s) =
      handleTrigger g triggerId s := by
  have hsub : ((g.edges.filter (fun e => e.source = triggerId)).map
      (fun e => e.id)).toFinset ⊆
      ((g.edges.filter (fun e => e.source ∈ getLinkedNodes g triggerId ∨
        e.source = triggerId)).map (fun e => e.id)).toFinset := by
    intro x hx
    simp only [List.mem_toFinset, List.mem_map, List.mem_filter] at hx ⊢
    obtain ⟨e, ⟨he, hsrc⟩, rfl⟩ := hx
    refine ⟨e, ⟨he, ?_⟩, rfl⟩
    simp only [decide_eq_true_eq] at hsrc ⊢
    exact Or.inr hsrc
  simp only [handleTrigger, handleExecuteNode, resetLinkedNodes]
  by_cases hp : (findNode g triggerId).map (fun n => n.type) = some "policy"
  · simp only [if_pos hp]
    refine SimState.ext ?_ ?_ ?_ ?_ ?_ ?_ ?_ <;>
      simp [purge_insert_purge, sdiff_idem]
  · simp only [if_neg hp]
    by_cases hl : (g.edges.filter (fun e => e.source = triggerId)).length > 0
    · simp only [if_pos hl]
      simp only [Bool.decide_or] at hsub
      refine SimState.ext ?_ ?_ ?_ ?_ ?_ ?_ ?_ <;>
        simp [purge_insert_purge, sdiff_idem, erase_sdiff_comm,
          Finset.union_sdiff_distrib, Finset.sdiff_eq_empty_iff_subset.2 hsub]
    · simp only [if_neg hl]
      refine SimState.ext ?_ ?_ ?_ ?_ ?_ ?_ ?_ <;>
        simp [purge_insert_purge, sdiff_idem, erase_sdiff_comm]

lemma handleExecuteNode_executed_cases (g : Graph) (q : String) (s : SimState) :
    (handleExecuteNode g q s).executedNodes = s.executedNodes ∨
    ((handleExecuteNode g q s).executedNodes = insert q s.executedNodes ∧
      (findNode g q).map (fun n => n.type) ≠ some "policy") := by
  simp only [handleExecuteNode]
  by_cases hp : (findNode g q).map (fun n => n.type) = some "policy"
  · simp only [if_pos hp]
    exact Or.inl trivial
  · simp only [if_neg hp]
    by_cases hl : (g.edges.filter (fun e => e.source = q)).length > 0
    · simp only [if_pos hl]
      exact Or.inr ⟨trivial, hp⟩
    · simp only [if_neg hl]
      exact Or.inr ⟨trivial, hp⟩

lemma policy_not_added_by_exec (g : Graph) (p : String) (n : SimNode)
    (hfind : findNode g p = some n) (hp : n.type = "policy")
    (q : String) (s : SimState) (hmem : p ∉ s.executedNodes) :
    p ∉ (handleExecuteNode g q s).executedNodes := by
  rcases handleExecuteNode_executed_cases g q s with h | ⟨h, hq⟩
  · rw [h]
    exact hmem
  · rw [h]
    intro hins
    rcases Finset.mem_insert.1 hins with heq | hmem2
    · apply hq
      rw [← heq, hfind]
      simp [hp]
    · exact hmem hmem2

/-- C5: Policy nodes never self-execute. executeNode applied to a node of
kind policy only inserts that node id into waitingForDecision and stops:
no executed mark, no activeNodes change, no animation, no timer. And a
policy node id enters executedNodes only through a policy decision: every
other operation (and timer completion) never adds it. -/
theorem C5_policy_never_self_executes (g : Graph) (p : String) (n : SimNode)
    (hfind : findNode g p = some n) (hp : n.type = "policy") :
    (∀ s : SimState, handleExecuteNode g p s =
      { s with waitingForDecision := insert p s.waitingForDecision }) ∧
    (∀ (op : Op) (s : SimState),
      (∀ parentPolicyId outputId, op ≠ Op.decision parentPolicyId outputId) →
      p ∉ s.executedNodes → p ∉ (applyOp g op s).executedNodes) := by
  have hcond : (findNode g p).map (fun m => m.type) = some "policy" := by
    rw [hfind]
    simp [hp]
  constructor
  · intro s
    simp only [handleExecuteNode, if_pos hcond]
  · intro op s hnotdec hmem
    cases op with
    | execNode q =>
      exact policy_not_added_by_exec g p n hfind hp q s hmem
    | decision a b =>
      exact absurd rfl (hnotdec a b)
    | trigger q =>
      apply policy_not_added_by_exec g p n hfind hp q
      simp only [resetLinkedNodes]
      intro hmem2
      exact hmem (Finset.mem_sdiff.1 hmem2).1
    | triggerFromOutput q =>
      apply policy_not_added_by_exec g p n hfind hp q
      simp only [resetLinkedNodes]
      intro hmem2
      exact hmem (Finset.mem_sdiff.1 hmem2).1
    | reset =>
      simp [applyOp, handleResetSimulation, initialSimState]
    | fire i =>
      simp only [applyOp, fireTimer]
      cases htim : s.timers[i]? with
      | none => exact hmem
      | some t =>
        simp only [fireTimerAction]
        by_cases htr : t.isTargetTrigger
        · simp only [if_pos htr]
          exact hmem
        · simp only [if_neg htr]
          exact policy_not_added_by_exec g p n hfind hp t.target _ hmem

theorem C5_policy_never_self_executes_witness :
    findNode gC5 "p" =
      some { id := "p", type := "policy", parentPolicyId := "", outputId := "" } ∧
    handleExecuteNode gC5 "p" initialSimState =
      { initialSimState with
        waitingForDecision := insert "p" initialSimState.waitingForDecision } ∧
    "p" ∉ (applyOp gC5 Op.reset initialSimState).executedNodes := by
  refine ⟨rfl, ?_, ?_⟩
  · exact (C5_policy_never_self_executes gC5 "p" _ rfl rfl).1 initialSimState
  · exact (C5_policy_never_self_executes gC5 "p" _ rfl rfl).2 Op.reset initialSimState
      (fun a b h => Op.noConfusion h) (Finset.not_mem_empty _)

/-- C6: trigger suppression. Executing the source of an edge whose target
is a trigger node marks the edge animating and schedules a completion
whose captured isTargetTrigger flag is set; firing that completion moves
the edge from animating to executed and does nothing else: it neither
executes the trigger target nor schedules further timers, so no node is
reached beyond the trigger by this wave. -/
theorem C6_trigger_suppression (g : Graph) (e : WEdge) (he : e ∈ g.edges)
    (hsrc : (findNode g e.source).map (fun n => n.type) ≠ some "policy")
    (htgt : (findNode g e.target).map (fun n => n.type) = some "trigger")
    (s : SimState) :
    e.id ∈ (handleExecuteNode g e.source s).animatingEdges ∧
    ({ edgeId := e.id, target := e.target, isTargetTrigger := true } : Timer) ∈
      (handleExecuteNode g e.source s).timers ∧
    (∀ (s2 : SimState) (i : Nat),
      s2.timers[i]? =
        some { edgeId := e.id, target := e.target, isTargetTrigger := true } →
      fireTimer g i s2 =
        { s2 with
          animatingEdges := s2.animatingEdges.erase e.id
          executedEdges := insert e.id s2.executedEdges
          timers := s2.timers.eraseIdx i }) := by
  have hmemfil : e ∈ g.edges.filter (fun e2 => e2.source = e.source) :=
    List.mem_filter.2 ⟨he, by simp⟩
  have hl : (g.edges.filter (fun e2 => e2.source = e.source)).length > 0 :=
    List.length_pos_of_mem hmemfil
  have htrig : isTriggerTarget g e.target = true := by
    rcases Option.map_eq_some'.1 htgt with ⟨n, hn, htype⟩
    simp only [isTriggerTarget, hn]
    exact beq_iff_eq.2 htype
  have hmk : mkTimer g e =
      { edgeId := e.id, target := e.target, isTargetTrigger := true } := by
    simp [mkTimer, htrig]
  refine ⟨?_, ?_, ?_⟩
  · simp only [handleExecuteNode, if_neg hsrc, if_pos hl]
    exact Finset.mem_union_right _
      (List.mem_toFinset.2 (List.mem_map.2 ⟨e, hmemfil, rfl⟩))
  · simp only [handleExecuteNode, if_neg hsrc, if_pos hl]
    exact List.mem_append_right _ (List.mem_map.2 ⟨e, hmemfil, hmk⟩)
  · intro s2 i htim
    simp only [fireTimer, htim, fireTimerAction, if_pos]

lemma exec_missing_node (g : Graph) (nodeId : String) (s : SimState)
    (hnone : findNode g nodeId = none)
    (hnoedge : ∀ e ∈ g.edges, e.source ≠ nodeId) :
    handleExecuteNode g nodeId s =
      { s with
        executedNodes := insert nodeId s.executedNodes
        activeNodes := s.activeNodes.erase nodeId } := by
  have hfil : g.edges.filter (fun e => e.source = nodeId) = [] := by
    rw [List.filter_eq_nil_iff]
    intro e he
    simpa using hnoedge e he
  simp [handleExecuteNode, hnone, hfil]

lemma reset_missing_node (g : Graph) (nodeId : String) (s : SimState)
    (hnoedge : ∀ e ∈ g.edges, e.source ≠ nodeId) :
    resetLinkedNodes g nodeId s = { s with timers := [] } := by
  have hL : getLinkedNodes g nodeId = ∅ := getLinkedNodes_no_out g nodeId hnoedge
  have hfil2 : g.edges.filter (fun e => e.source = nodeId) = [] := by
    rw [List.filter_eq_nil_iff]
    intro e he
    simpa using hnoedge e he
  simp only [resetLinkedNodes]
  refine SimState.ext ?_ ?_ ?_ ?_ ?_ ?_ ?_ <;> simp [hL, hfil2]

/-- C3 (amended): a decision whose (parentPolicyId, outputId) matches no
PolicyOutput node is a strict no-op, but executeNode on a node id absent
from the node collection does not return early: it still inserts the id
into executedNodes (and erases it from activeNodes), and trigger on such
an id additionally cancels all pending timers; with no edge sourced at the
id they animate nothing and schedule nothing. -/
theorem C3_missing_target_amended :
    (∀ (g : Graph) (parentPolicyId outputId : String) (s : SimState),
      findPolicyOutput g parentPolicyId outputId = none →
      handlePolicyDecision g parentPolicyId outputId s = s) ∧
    (∀ (g : Graph) (nodeId : String) (s : SimState),
      findNode g nodeId = none →
      (∀ e ∈ g.edges, e.source ≠ nodeId) →
      handleExecuteNode g nodeId s =
        { s with
          executedNodes := insert nodeId s.executedNodes
          activeNodes := s.activeNodes.erase nodeId }) ∧
    (∀ (g : Graph) (nodeId : String) (s : SimState),
      findNode g nodeId = none →
      (∀ e ∈ g.edges, e.source ≠ nodeId) →
      handleTrigger g nodeId s =
        { s with
          executedNodes := insert nodeId s.executedNodes
          activeNodes := s.activeNodes.erase nodeId
          timers := [] }) := by
  refine ⟨?_, ?_, ?_⟩
  · intro g p o s hnone
    simp [handlePolicyDecision, hnone]
  · intro g nodeId s hnone hnoedge
    exact exec_missing_node g nodeId s hnone hnoedge
  · intro g nodeId s hnone hnoedge
    rw [handleTrigger, reset_missing_node g nodeId _ hnoedge,
      exec_missing_node g nodeId _ hnone hnoedge]

/-- C3 counterexample: executeNode on an id absent from the node collection
is not a no-op; it inserts the ghost id into executedNodes. -/
theorem C3_missing_target_counterexample :
    (handleExecuteNode gC3empty "ghost" initialSimState).executedNodes ≠
      initialSimState.executedNodes := by
  decide

theorem C3_missing_target_amended_witness :
    findPolicyOutput gC3empty "p" "o" = none ∧
    handlePolicyDecision gC3empty "p" "o" initialSimState = initialSimState ∧
    handleTrigger gC3empty "ghost" initialSimState =
      { initialSimState with
        executedNodes := insert "ghost" initialSimState.executedNodes
        activeNodes := initialSimState.activeNodes.erase "ghost"
        timers := [] } :=
  ⟨rfl,
    C3_missing_target_amended.1 gC3empty "p" "o" initialSimState rfl,
    C3_missing_target_amended.2.2 gC3empty "ghost" initialSimState rfl
      (fun e he => absurd he (List.not_mem_nil e))⟩

lemma mem_foldl_union {α β : Type} [DecidableEq β] (l : List α) (f : α → Finset β)
    (init : Finset β) (x : β) :
    x ∈ l.foldl (fun acc a => acc ∪ f a) init ↔ x ∈ init ∨ ∃ a ∈ l, x ∈ f a := by
  induction l generalizing init with
  | nil => simp [List.foldl]
  | cons a l ih =>
    simp only [List.foldl, ih, Finset.mem_union, List.mem_cons]
    constructor
    · rintro ((h | h) | ⟨b, hb, hx⟩)
      · exact Or.inl h
      · exact Or.inr ⟨a, Or.inl rfl, h⟩
      · exact Or.inr ⟨b, Or.inr hb, hx⟩
    · rintro (h | ⟨b, (rfl | hb), hx⟩)
      · exact Or.inl (Or.inl h)
      · exact Or.inl (Or.inr hx)
      · exact Or.inr ⟨b, hb, hx⟩

lemma exec_disjoint (g : Graph) (nodeId : String) (s : SimState)
    (hdis : s.animatingEdges ∩ s.executedEdges = ∅)
    (hfresh : execFresh g nodeId s) :
    (handleExecuteNode g nodeId s).animatingEdges ∩
      (handleExecuteNode g nodeId s).executedEdges = ∅ := by
  simp only [handleExecuteNode]
  by_cases hp : (findNode g nodeId).map (fun n => n.type) = some "policy"
  · simp only [if_pos hp]
    exact hdis
  · simp only [if_neg hp]
    by_cases hl : (g.edges.filter (fun e => e.source = nodeId)).length > 0
    · simp only [if_pos hl]
      apply Finset.eq_empty_iff_forall_not_mem.2
      intro x hx
      rcases Finset.mem_inter.1 hx with ⟨ha, he⟩
      rcases Finset.mem_union.1 ha with h | h
      · exact Finset.eq_empty_iff_forall_not_mem.1 hdis x (Finset.mem_inter.2 ⟨h, he⟩)
      · rcases List.mem_map.1 (List.mem_toFinset.1 h) with ⟨e, hef, rfl⟩
        rcases List.mem_filter.1 hef with ⟨hee, hsrc⟩
        exact hfresh e hee (of_decide_eq_true hsrc) he
    · simp only [if_neg hl]
      exact hdis

lemma reset_disjoint (g : Graph) (t : String) (s : SimState)
    (hdis : s.animatingEdges ∩ s.executedEdges = ∅) :
    (resetLinkedNodes g t s).animatingEdges ∩
      (resetLinkedNodes g t s).executedEdges = ∅ := by
  simp only [resetLinkedNodes]
  apply Finset.eq_empty_iff_forall_not_mem.2
  intro x hx
  rcases Finset.mem_inter.1 hx with ⟨ha, he⟩
  exact Finset.eq_empty_iff_forall_not_mem.1 hdis x
    (Finset.mem_inter.2 ⟨(Finset.mem_sdiff.1 ha).1, (Finset.mem_sdiff.1 he).1⟩)

lemma reset_fresh (g : Graph) (t : String) (s : SimState) :
    execFresh g t (resetLinkedNodes g t s) := by
  intro e he hsrc
  simp only [resetLinkedNodes]
  intro hmem
  rcases Finset.mem_sdiff.1 hmem with ⟨_, hnot⟩
  apply hnot
  refine List.mem_toFinset.2 (List.mem_map.2 ⟨e, List.mem_filter.2 ⟨he, ?_⟩, rfl⟩)
  exact decide_eq_true (Or.inr hsrc)

/-- C4 (amended): timer completions move an edge animating-to-executed and
every purge removes edges from both sets, so decision, trigger,
triggerFromOutput and reset always preserve the disjointness of
animatingEdges and executedEdges; executeNode (bare, or embedded in a timer
completion) preserves it only when no outgoing edge of the executed node is
still in executedEdges.  Without that freshness condition re-execution of a
node (cycles or converging paths) re-animates an already-executed edge, so
the claimed invariant fails on reachable states (see the counterexample). -/
theorem C4_disjointness_amended (g : Graph) (op : Op) (s : SimState)
    (hdis : s.animatingEdges ∩ s.executedEdges = ∅) (hok : stepOk g op s) :
    (applyOp g op s).animatingEdges ∩ (applyOp g op s).executedEdges = ∅ := by
  cases op with
  | execNode nodeId =>
    exact exec_disjoint g nodeId s hdis hok
  | decision parentPolicyId outputId =>
    simp only [applyOp, handlePolicyDecision]
    cases hfind : findPolicyOutput g parentPolicyId outputId with
    | none => exact hdis
    | some outputNode =>
      dsimp only
      have houtmem : outputNode ∈ policyOutputsOf g parentPolicyId := by
        refine List.mem_filter.2 ⟨List.mem_of_find?_eq_some hfind, ?_⟩
        have := List.find?_some hfind
        simp only [decide_eq_true_eq] at this ⊢
        exact ⟨this.1, this.2.1⟩
      cases hce : g.edges.find? (fun e => e.source = outputNode.id) with
      | none =>
        dsimp only
        apply Finset.eq_empty_iff_forall_not_mem.2
        intro x hx
        rcases Finset.mem_inter.1 hx with ⟨ha, he⟩
        exact Finset.eq_empty_iff_forall_not_mem.1 hdis x
          (Finset.mem_inter.2 ⟨(Finset.mem_sdiff.1 ha).1, (Finset.mem_sdiff.1 he).1⟩)
      | some chosenEdge =>
        dsimp only
        have hceid : chosenEdge.id ∈ (policyOutputsOf g parentPolicyId).foldl
            (fun acc po => acc ∪ linkedEdgeIdsOf g po) ∅ := by
          refine (mem_foldl_union _ _ _ _).2 (Or.inr ⟨outputNode, houtmem, ?_⟩)
          refine List.mem_toFinset.2 (List.mem_map.2
            ⟨chosenEdge, List.mem_filter.2 ⟨List.mem_of_find?_eq_some hce, ?_⟩, rfl⟩)
          have := List.find?_some hce
          simp only [decide_eq_true_eq] at this
          exact decide_eq_true (Or.inr (Or.inr this))
        apply Finset.eq_empty_iff_forall_not_mem.2
        intro x hx
        rcases Finset.mem_inter.1 hx with ⟨ha, he⟩
        rcases Finset.mem_insert.1 ha with rfl | ha2
        · exact (Finset.mem_sdiff.1 he).2 hceid
        · exact Finset.eq_empty_iff_forall_not_mem.1 hdis x
            (Finset.mem_inter.2 ⟨(Finset.mem_sdiff.1 ha2).1, (Finset.mem_sdiff.1 he).1⟩)
  | trigger nodeId =>
    exact exec_disjoint g nodeId _ (reset_disjoint g nodeId s hdis)
      (reset_fresh g nodeId s)
  | triggerFromOutput nodeId =>
    apply exec_disjoint
    · exact reset_disjoint g nodeId s hdis
    · exact reset_fresh g nodeId s
  | reset =>
    simp [applyOp, handleResetSimulation, initialSimState]
  | fire i =>
    simp only [applyOp, fireTimer]
    cases htim : s.timers[i]? with
    | none => exact hdis
    | some t =>
      simp only [stepOk, htim] at hok
      have hdis2 : (fireTimerAction g t
          { s with timers := s.timers.eraseIdx i }).animatingEdges ∩
          (fireTimerAction g t
            { s with timers := s.timers.eraseIdx i }).executedEdges = ∅ := by
        simp only [fireTimerAction]
        have hdismid : (s.animatingEdges.erase t.edgeId) ∩
            (insert t.edgeId s.executedEdges) = ∅ := by
          apply Finset.eq_empty_iff_forall_not_mem.2
          intro x hx
          rcases Finset.mem_inter.1 hx with ⟨ha, he⟩
          rcases Finset.mem_insert.1 he with rfl | he2
          · exact (Finset.mem_erase.1 ha).1 rfl
          · exact Finset.eq_empty_iff_forall_not_mem.1 hdis x
              (Finset.mem_inter.2 ⟨(Finset.mem_erase.1 ha).2, he2⟩)
        by_cases htr : t.isTargetTrigger
        · simp only [if_pos htr]
          exact hdismid
        · simp only [if_neg htr]
          apply exec_disjoint
          · exact hdismid
          · rcases hok with h | h
            · exact absurd h htr
            · exact fun e he hsrc => h e he hsrc
      exact hdis2

/-- C4 counterexample: on the one-step graph with a self-loop edge, the
state reached by executeNode("A") followed by one timer completion has the
self-loop edge in animatingEdges and executedEdges at once: the completion
marks it executed and the recursive executeNode("A") re-animates it without
clearing the executed mark. -/
theorem C4_disjointness_counterexample :
    ReachableState gC4 sC4 ∧ sC4.animatingEdges ∩ sC4.executedEdges ≠ ∅ :=
  ⟨⟨[Op.execNode "A", Op.fire 0], rfl⟩, by decide⟩

theorem C4_disjointness_amended_witness :
    initialSimState.animatingEdges ∩ initialSimState.executedEdges = ∅ ∧
    stepOk gC4 (Op.execNode "A") initialSimState ∧
    (applyOp gC4 (Op.execNode "A") initialSimState).animatingEdges ∩
      (applyOp gC4 (Op.execNode "A") initialSimState).executedEdges = ∅ := by
  have h1 : initialSimState.animatingEdges ∩ initialSimState.executedEdges = ∅ := by
    decide
  have h2 : stepOk gC4 (Op.execNode "A") initialSimState :=
    fun e he hsrc => Finset.not_mem_empty e.id
  exact ⟨h1, h2, C4_disjointness_amended gC4 (Op.execNode "A") initialSimState h1 h2⟩

lemma allLinkedEdgeIds_eq (g : Graph) (parentPolicyId : String) :
    (policyOutputsOf g parentPolicyId).foldl
      (fun acc po => acc ∪ linkedEdgeIdsOf g po) ∅ =
      incidentOrSiblingEdgeIds g parentPolicyId := by
  ext x
  rw [mem_foldl_union]
  simp only [incidentOrSiblingEdgeIds, linkedEdgeIdsOf, downstreamUnion,
    List.mem_toFinset, List.mem_map, List.mem_filter, decide_eq_true_eq,
    mem_foldl_union, Finset.not_mem_empty, false_or]
  constructor
  · rintro ⟨po, hpo, e, ⟨he, hcase⟩, rfl⟩
    refine ⟨e, ⟨he, ?_⟩, rfl⟩
    rcases hcase with h | h | h
    · exact Or.inl ⟨po, hpo, h⟩
    · exact Or.inr (Or.inl ⟨po, hpo, h⟩)
    · exact Or.inr (Or.inr ⟨po, hpo, h ▸ rfl⟩)
  · rintro ⟨e, ⟨he, hcase⟩, rfl⟩
    rcases hcase with ⟨po, hpo, h⟩ | ⟨po, hpo, h⟩ | ⟨po, hpo, h⟩
    · exact ⟨po, hpo, e, ⟨he, Or.inl h⟩, rfl⟩
    · exact ⟨po, hpo, e, ⟨he, Or.inr (Or.inl h)⟩, rfl⟩
    · exact ⟨po, hpo, e, ⟨he, Or.inr (Or.inr h.symm)⟩, rfl⟩

lemma handlePolicyDecision_characterization (g : Graph) (parentPolicyId outputId : String)
    (outputNode : SimNode)
    (hfind : findPolicyOutput g parentPolicyId outputId = some outputNode)
    (s : SimState) :
    handlePolicyDecision g parentPolicyId outputId s =
      match g.edges.find? (fun e => e.source = outputNode.id) with
      | none =>
        { s with
          executedNodes :=
            insert parentPolicyId (s.executedNodes \ downstreamUnion g parentPolicyId)
          activeNodes := s.activeNodes \ downstreamUnion g parentPolicyId
          waitingForDecision :=
            (s.waitingForDecision \ downstreamUnion g parentPolicyId).erase parentPolicyId
          executedEdges := s.executedEdges \ incidentOrSiblingEdgeIds g parentPolicyId
          animatingEdges := s.animatingEdges \ incidentOrSiblingEdgeIds g parentPolicyId }
      | some chosenEdge =>
        { s with
          executedNodes :=
            insert parentPolicyId (s.executedNodes \ downstreamUnion g parentPolicyId)
          activeNodes := s.activeNodes \ downstreamUnion g parentPolicyId
          waitingForDecision :=
            (s.waitingForDecision \ downstreamUnion g parentPolicyId).erase parentPolicyId
          executedEdges := s.executedEdges \ incidentOrSiblingEdgeIds g parentPolicyId
          animatingEdges :=
            insert chosenEdge.id
              (s.animatingEdges \ incidentOrSiblingEdgeIds g parentPolicyId)
          timers := s.timers ++ [mkTimer g chosenEdge] } := by
  simp only [handlePolicyDecision, hfind]
  rw [allLinkedEdgeIds_eq]
  cases hce : g.edges.find? (fun e => e.source = outputNode.id) with
  | none =>
    dsimp only
    rfl
  | some chosenEdge =>
    dsimp only
    rfl

/-- C2: resolvePolicyDecision with a matching PolicyOutput removes the
union of the downstream-reachable sets of every PolicyOutput sibling of
the parent (not only the chosen one) from executedNodes, activeNodes and
waitingForDecision, removes from executedEdges and animatingEdges every
edge incident to that union or sourced at any sibling output, then removes
the parent policy from waitingForDecision, marks it executed, and animates
then schedules propagation only along the first edge sourced at the chosen
PolicyOutput, with the isTargetTrigger suppression flag captured from the
target's node kind. -/
theorem C2_policy_decision_semantics (g : Graph) (parentPolicyId outputId : String)
    (outputNode : SimNode)
    (hfind : findPolicyOutput g parentPolicyId outputId = some outputNode)
    (s : SimState) :
    handlePolicyDecision g parentPolicyId outputId s =
      match g.edges.find? (fun e => e.source = outputNode.id) with
      | none =>
        { s with
          executedNodes :=
            insert parentPolicyId (s.executedNodes \ downstreamUnion g parentPolicyId)
          activeNodes := s.activeNodes \ downstreamUnion g parentPolicyId
          waitingForDecision :=
            (s.waitingForDecision \ downstreamUnion g parentPolicyId).erase parentPolicyId
          executedEdges := s.executedEdges \ incidentOrSiblingEdgeIds g parentPolicyId
          animatingEdges := s.animatingEdges \ incidentOrSiblingEdgeIds g parentPolicyId }
      | some chosenEdge =>
        { s with
          executedNodes :=
            insert parentPolicyId (s.executedNodes \ downstreamUnion g parentPolicyId)
          activeNodes := s.activeNodes \ downstreamUnion g parentPolicyId
          waitingForDecision :=
            (s.waitingForDecision \ downstreamUnion g parentPolicyId).erase parentPolicyId
          executedEdges := s.executedEdges \ incidentOrSiblingEdgeIds g parentPolicyId
          animatingEdges :=
            insert chosenEdge.id
              (s.animatingEdges \ incidentOrSiblingEdgeIds g parentPolicyId)
          timers := s.timers ++ [mkTimer g chosenEdge] } :=
  handlePolicyDecision_characterization g parentPolicyId outputId outputNode hfind s

theorem C2_policy_decision_semantics_witness :
    findPolicyOutput gC2 "p" "yes" = some oC2 ∧
    handlePolicyDecision gC2 "p" "yes" initialSimState =
      match gC2.edges.find? (fun e => e.source = oC2.id) with
      | none =>
        { initialSimState with
          executedNodes :=
            insert "p" (initialSimState.executedNodes \ downstreamUnion gC2 "p")
          activeNodes := initialSimState.activeNodes \ downstreamUnion gC2 "p"
          waitingForDecision :=
            (initialSimState.waitingForDecision \ downstreamUnion gC2 "p").erase "p"
          executedEdges :=
            initialSimState.executedEdges \ incidentOrSiblingEdgeIds gC2 "p"
          animatingEdges :=
            initialSimState.animatingEdges \ incidentOrSiblingEdgeIds gC2 "p" }
      | some chosenEdge =>
        { initialSimState with
          executedNodes :=
            insert "p" (initialSimState.executedNodes \ downstreamUnion gC2 "p")
          activeNodes := initialSimState.activeNodes \ downstreamUnion gC2 "p"
          waitingForDecision :=
            (initialSimState.waitingForDecision \ downstreamUnion gC2 "p").erase "p"
          executedEdges :=
            initialSimState.executedEdges \ incidentOrSiblingEdgeIds gC2 "p"
          animatingEdges :=
            insert chosenEdge.id
              (initialSimState.animatingEdges \ incidentOrSiblingEdgeIds gC2 "p")
          timers := initialSimState.timers ++ [mkTimer gC2 chosenEdge] } :=
  ⟨rfl, C2_policy_decision_semantics gC2 "p" "yes" oC2 rfl initialSimState⟩

/-- C10: when the chosen PolicyOutput has several outgoing edges,
resolvePolicyDecision animates and schedules propagation only along the
first matching edge of the edge collection (edges.find); every other edge
sourced at the chosen output ends the call outside animatingEdges and
outside executedEdges (the reset purges it and only the chosen edge is
re-added), and the only timer scheduled by the call is the chosen edge's. -/
theorem C10_first_edge_only (g : Graph) (parentPolicyId outputId : String)
    (outputNode : SimNode)
    (hfind : findPolicyOutput g parentPolicyId outputId = some outputNode)
    (chosenEdge : WEdge)
    (hce : g.edges.find? (fun e => e.source = outputNode.id) = some chosenEdge)
    (f : WEdge) (hf : f ∈ g.edges) (hfsrc : f.source = outputNode.id)
    (hne : f.id ≠ chosenEdge.id) (s : SimState) :
    f.id ∉ (handlePolicyDecision g parentPolicyId outputId s).animatingEdges ∧
    f.id ∉ (handlePolicyDecision g parentPolicyId outputId s).executedEdges ∧
    (handlePolicyDecision g parentPolicyId outputId s).timers =
      s.timers ++ [mkTimer g chosenEdge] := by
  have houtmem : outputNode ∈ policyOutputsOf g parentPolicyId := by
    refine List.mem_filter.2 ⟨List.mem_of_find?_eq_some hfind, ?_⟩
    have := List.find?_some hfind
    simp only [decide_eq_true_eq] at this ⊢
    exact ⟨this.1, this.2.1⟩
  have hfE : f.id ∈ incidentOrSiblingEdgeIds g parentPolicyId := by
    refine List.mem_toFinset.2 (List.mem_map.2 ⟨f, List.mem_filter.2 ⟨hf, ?_⟩, rfl⟩)
    refine decide_eq_true (Or.inr (Or.inr ?_))
    exact List.mem_map.2 ⟨outputNode, houtmem, hfsrc.symm⟩
  rw [handlePolicyDecision_characterization g parentPolicyId outputId outputNode hfind s, hce]
  refine ⟨?_, ?_, rfl⟩
  · intro hmem
    rcases Finset.mem_insert.1 hmem with h | h
    · exact hne h
    · exact (Finset.mem_sdiff.1 h).2 hfE
  · intro hmem
    exact (Finset.mem_sdiff.1 hmem).2 hfE

theorem C10_first_edge_only_witness :
    findPolicyOutput gC10 "p" "yes" = some oC10 ∧
    gC10.edges.find? (fun e => e.source = oC10.id) =
      some { id := "e1", source := "o1", target := "x" } ∧
    ({ id := "e4", source := "o1", target := "y" } : WEdge) ∈ gC10.edges ∧
    "e4" ∉ (handlePolicyDecision gC10 "p" "yes" initialSimState).animatingEdges ∧
    "e4" ∉ (handlePolicyDecision gC10 "p" "yes" initialSimState).executedEdges ∧
    (handlePolicyDecision gC10 "p" "yes" initialSimState).timers =
      initialSimState.timers ++
        [mkTimer gC10 { id := "e1", source := "o1", target := "x" }] := by
  have h := C10_first_edge_only gC10 "p" "yes" oC10 rfl
    { id := "e1", source := "o1", target := "x" } rfl
    { id := "e4", source := "o1", target := "y" } (by decide) rfl (by decide)
    initialSimState
  exact ⟨rfl, rfl, by decide, h.1, h.2.1, h.2.2⟩

/-- C9 (amended): a node-removal batch containing a Policy node also
removes every PolicyOutput node listed in that policy's outputNodeIds, in
the same single batched node mutation; but the edges incident to those
cascaded PolicyOutput nodes are not removed by handleNodesChange - the
edge collection is returned unchanged. -/
theorem C9_cascade_delete_amended (c : Canvas) (removeIds : List String)
    (policyNodeId : String) (policyNode : CNode)
    (hmem : policyNodeId ∈ removeIds)
    (hfind : c.nodes.find? (fun n => n.id = policyNodeId) = some policyNode)
    (htype : policyNode.type = "policy") :
    (∀ oid ∈ policyNode.data.outputNodeIds,
      ∀ m ∈ (handleNodesChangeRemove c removeIds).nodes, m.id ≠ oid) ∧
    (handleNodesChangeRemove c removeIds).edges = c.edges := by
  constructor
  · intro oid hoid m hm heq
    simp only [handleNodesChangeRemove] at hm
    rcases List.mem_filter.1 hm with ⟨hmem2, hpred⟩
    simp only [decide_eq_true_eq, Bool.and_eq_true] at hpred
    rcases hpred with ⟨h1, h2⟩
    by_cases hin : oid ∈ removeIds
    · exact h1 (heq ▸ hin)
    · apply h2
      rw [heq]
      apply List.mem_flatMap.2
      refine ⟨policyNodeId, hmem, ?_⟩
      rw [hfind]
      simp only [if_pos htype]
      refine List.mem_filter.2 ⟨hoid, ?_⟩
      simp only [decide_eq_true_eq]
      intro hc
      exact hin (List.mem_toFinset.1 hc)
  · rfl

/-- C9 counterexample: removing the policy p1 does cascade-remove its
PolicyOutput node o1, but the edge e1 incident to o1 survives the batch:
the claimed "every edge incident to the removed PolicyOutput nodes is
removed as well" is false of handleNodesChange. -/
theorem C9_cascade_delete_counterexample :
    (∀ m ∈ (handleNodesChangeRemove cC9 ["p1"]).nodes, m.id ≠ "o1") ∧
    ({ id := "e1", source := "o1", target := "x" } : WEdge) ∈
      (handleNodesChangeRemove cC9 ["p1"]).edges := by
  decide

theorem C9_cascade_delete_amended_witness :
    "p1" ∈ ["p1"] ∧
    cC9.nodes.find? (fun n => n.id = "p1") = some p1C9 ∧
    p1C9.type = "policy" ∧
    (∀ oid ∈ p1C9.data.outputNodeIds,
      ∀ m ∈ (handleNodesChangeRemove cC9 ["p1"]).nodes, m.id ≠ oid) ∧
    (handleNodesChangeRemove cC9 ["p1"]).edges = cC9.edges := by
  have h := C9_cascade_delete_amended cC9 ["p1"] "p1" p1C9
    (List.mem_singleton.2 rfl) rfl rfl
  exact ⟨List.mem_singleton.2 rfl, rfl, rfl, h.1, h.2⟩

/-- C7: reachability contract of getLinkedNodes (computeDownstream).  The
function is total in this embedding (its worklist terminates on every
finite graph, cycles included, by the visited-set measure used in its
definition), its result contains exactly the nodes reachable from
startNodeId through at least one edge while excluding startNodeId itself
(also when startNodeId lies on a cycle), and for a startNodeId absent from
the graph it is the empty set. -/
theorem C7_reachability_contract (g : Graph) (startNodeId : String) :
    (∀ t : String, t ∈ getLinkedNodes g startNodeId ↔
      t ≠ startNodeId ∧ Relation.TransGen (edgeStep g.edges) startNodeId t) ∧
    ((∀ n ∈ g.nodes, n.id ≠ startNodeId) →
     (∀ e ∈ g.edges, e.source ≠ startNodeId ∧ e.target ≠ startNodeId) →
     getLinkedNodes g startNodeId = ∅) :=
  ⟨fun t => getLinkedNodes_mem g startNodeId t,
   fun _ habs => getLinkedNodes_no_out g startNodeId (fun e he => (habs e he).1)⟩

theorem C7_reachability_contract_witness :
    ("b" ∈ getLinkedNodes gC7 "a" ↔
      "b" ≠ "a" ∧ Relation.TransGen (edgeStep gC7.edges) "a" "b") ∧
    (∀ n ∈ gC7.nodes, n.id ≠ "zz") ∧
    (∀ e ∈ gC7.edges, e.source ≠ "zz" ∧ e.target ≠ "zz") ∧
    getLinkedNodes gC7 "zz" = ∅ :=
  ⟨(C7_reachability_contract gC7 "a").1 "b", by decide, by decide,
    (C7_reachability_contract gC7 "zz").2 (by decide) (by decide)⟩

theorem C6_trigger_suppression_witness :
    ({ id := "eAB", source := "A", target := "B" } : WEdge) ∈ gC6.edges ∧
    (findNode gC6 "A").map (fun n => n.type) ≠ some "policy" ∧
    (findNode gC6 "B").map (fun n => n.type) = some "trigger" ∧
    "eAB" ∈ (handleExecuteNode gC6 "A" initialSimState).animatingEdges ∧
    ({ edgeId := "eAB", target := "B", isTargetTrigger := true } : Timer) ∈
      (handleExecuteNode gC6 "A" initialSimState).timers := by
  have h := C6_trigger_suppression gC6 { id := "eAB", source := "A", target := "B" }
    (by decide) (by decide) (by decide) initialSimState
  exact ⟨by decide, by decide, by decide, h.1, h.2.1⟩

lemma updatedNodeOf_preserves (c : Canvas) (policyNodeId : String)
    (policyNode : CNode) (newOutputs : List PolicyOutput) (n : CNode) :
    (updatedNodeOf c policyNodeId policyNode newOutputs n).id = n.id ∧
    (updatedNodeOf c policyNodeId policyNode newOutputs n).type = n.type ∧
    (updatedNodeOf c policyNodeId policyNode newOutputs n).data.parentPolicyId =
      n.data.parentPolicyId ∧
    (updatedNodeOf c policyNodeId policyNode newOutputs n).data.outputId =
      n.data.outputId ∧
    (updatedNodeOf c policyNodeId policyNode newOutputs n).position = n.position := by
  unfold updatedNodeOf
  split
  · exact ⟨rfl, rfl, rfl, rfl, rfl⟩
  · split
    · cases hfo : newOutputs.find? (fun o => o.id = n.data.outputId) with
      | none => exact ⟨rfl, rfl, rfl, rfl, rfl⟩
      | some mo =>
        dsimp only
        split
        · exact ⟨rfl, rfl, rfl, rfl, rfl⟩
        · exact ⟨rfl, rfl, rfl, rfl, rfl⟩
    · exact ⟨rfl, rfl, rfl, rfl, rfl⟩

lemma newOutputNodesOf_shape (c : Canvas) (policyNodeId : String)
    (policyNode : CNode) (newOutputs : List PolicyOutput) :
    ∀ m ∈ newOutputNodesOf c policyNodeId policyNode newOutputs,
      (∃ k, k < (addedOutputsOf policyNode newOutputs).length ∧
        m.id = "node_" ++ toString (c.nextId + k)) ∧
      m.type = "policyOutput" ∧ m.data.parentPolicyId = policyNodeId ∧
      ∃ o ∈ addedOutputsOf policyNode newOutputs,
        m.data.outputId = o.id ∧ m.data.label = o.label := by
  intro m hm
  rcases List.mem_map.1 hm with ⟨p, hp, rfl⟩
  have hidx := List.mem_enumFrom hp
  have hmem2 : p.2 ∈ addedOutputsOf policyNode newOutputs := by
    have := hidx.2.2
    rw [this]
    exact List.getElem_mem _
  refine ⟨⟨p.1, ?_, rfl⟩, rfl, rfl, p.2, hmem2, rfl, rfl⟩
  have := hidx.2.1
  simpa using this

lemma filter_eq_singleton_of_nodup {α β : Type} [DecidableEq β] (f : α → β)
    (l : List α) (hnodup : (l.map f).Nodup) (a : α) (ha : a ∈ l) :
    l.filter (fun x => f x = f a) = [a] := by
  induction l with
  | nil => cases ha
  | cons b l ih =>
    rw [List.map_cons, List.nodup_cons] at hnodup
    rcases hnodup with ⟨hnb, hnl⟩
    rcases List.mem_cons.1 ha with rfl | ha2
    · rw [List.filter_cons]
      have hres : l.filter (fun x => f x = f a) = [] := by
        rw [List.filter_eq_nil_iff]
        intro x hx hfx
        rw [decide_eq_true_eq] at hfx
        exact hnb (hfx ▸ List.mem_map.2 ⟨x, hx, rfl⟩)
      simp [hres]
    · have hfb : ¬(f b = f a) := fun h =>
        hnb (h ▸ List.mem_map.2 ⟨a, ha2, rfl⟩)
      rw [List.filter_cons]
      simp [hfb, ih hnl ha2]

lemma length_filter_enumFrom {α : Type} (q : α → Bool) (l : List α) (k : Nat) :
    ((l.enumFrom k).filter (fun p => q p.2)).length = (l.filter q).length := by
  induction l generalizing k with
  | nil => rfl
  | cons a l ih =>
    rw [List.enumFrom_cons, List.filter_cons, List.filter_cons]
    cases hq : q a
    · simpa using ih (k + 1)
    · simpa using ih (k + 1)

lemma forall₂_enumFrom_map {α β : Type} (P : α → β → Prop) (mk : Nat × α → β)
    (l : List α) (k : Nat)
    (h : ∀ p : Nat × α, p ∈ l.enumFrom k → P p.2 (mk p)) :
    List.Forall₂ P l ((l.enumFrom k).map mk) := by
  induction l generalizing k with
  | nil => exact List.Forall₂.nil
  | cons a l ih =>
    rw [List.enumFrom_cons, List.map_cons]
    exact List.Forall₂.cons (h (k, a) (List.mem_cons_self _ _))
      (ih (k + 1) (fun p hp => h p (List.mem_cons_of_mem _ hp)))

lemma handleOutputsChange_unfold (c : Canvas) (policyNodeId : String)
    (newOutputs : List PolicyOutput) (policyNode : CNode)
    (hfind : c.nodes.find? (fun n => n.id = policyNodeId) = some policyNode)
    (htype : policyNode.type = "policy") :
    handleOutputsChange c policyNodeId newOutputs =
      { nodes :=
          ((c.nodes.filter (fun n =>
            n.id ∉ nodeIdsToRemoveOf c policyNodeId policyNode newOutputs)).map
              (updatedNodeOf c policyNodeId policyNode newOutputs)) ++
            newOutputNodesOf c policyNodeId policyNode newOutputs
        edges :=
          if 0 < (nodeIdsToRemoveOf c policyNodeId policyNode newOutputs).card then
            c.edges.filter (fun e =>
              e.source ∉ nodeIdsToRemoveOf c policyNodeId policyNode newOutputs ∧
              e.target ∉ nodeIdsToRemoveOf c policyNodeId policyNode newOutputs)
          else c.edges
        nextId := c.nextId + (addedOutputsOf policyNode newOutputs).length } := by
  unfold handleOutputsChange
  rw [hfind]
  dsimp only
  rw [if_neg (fun h => h htype)]

lemma mem_nodeIdsToRemoveOf (c : Canvas) (policyNodeId : String)
    (policyNode : CNode) (newOutputs : List PolicyOutput) (n : CNode)
    (hn : n ∈ c.nodes) (h1 : n.type = "policyOutput")
    (h2 : n.data.parentPolicyId = policyNodeId)
    (h3 : n.data.outputId ∈ policyNode.data.outputs.map (fun o => o.id))
    (h4 : n.data.outputId ∉ newOutputs.map (fun o => o.id)) :
    n.id ∈ nodeIdsToRemoveOf c policyNodeId policyNode newOutputs := by
  simp only [nodeIdsToRemoveOf, outputNodesToRemoveOf, List.mem_toFinset,
    List.mem_map]
  refine ⟨n, List.mem_filter.2 ⟨hn, ?_⟩, rfl⟩
  simp only [Bool.and_eq_true, decide_eq_true_eq]
  refine ⟨h1, h2, ?_⟩
  simp only [removedOutputIdsOf, existingOutputIdsOf, List.mem_filter,
    decide_eq_true_eq]
  exact ⟨h3, h4⟩

lemma removed_node_pred (c : Canvas) (policyNodeId : String) (policyNode : CNode)
    (newOutputs : List PolicyOutput) (nid : String)
    (h : nid ∈ nodeIdsToRemoveOf c policyNodeId policyNode newOutputs) :
    ∃ r ∈ c.nodes, r.id = nid ∧ r.type = "policyOutput" ∧
      r.data.parentPolicyId = policyNodeId ∧
      r.data.outputId ∉ newOutputs.map (fun o => o.id) := by
  simp only [nodeIdsToRemoveOf, outputNodesToRemoveOf, List.mem_toFinset,
    List.mem_map] at h
  rcases h with ⟨r, hrf, rfl⟩
  rcases List.mem_filter.1 hrf with ⟨hrmem, hrpred⟩
  simp only [Bool.and_eq_true, decide_eq_true_eq] at hrpred
  rcases hrpred with ⟨ht, hp, hrem⟩
  simp only [removedOutputIdsOf, existingOutputIdsOf, List.mem_filter,
    decide_eq_true_eq] at hrem
  exact ⟨r, hrmem, rfl, ht, hp, hrem.2⟩

lemma policy_not_removed (c : Canvas) (policyNodeId : String) (policyNode : CNode)
    (newOutputs : List PolicyOutput)
    (hnodup : (c.nodes.map (fun n => n.id)).Nodup)
    (hpolmem : policyNode ∈ c.nodes) (htype : policyNode.type = "policy") :
    policyNode.id ∉ nodeIdsToRemoveOf c policyNodeId policyNode newOutputs := by
  intro h
  rcases removed_node_pred c policyNodeId policyNode newOutputs _ h with
    ⟨r, hrmem, hrid, hrt, _, _⟩
  have : r = policyNode := List.inj_on_of_nodup_map hnodup hrmem hpolmem hrid
  rw [this, htype] at hrt
  exact absurd hrt (by decide)

lemma surviving_child_not_removed (c : Canvas) (policyNodeId : String)
    (policyNode : CNode) (newOutputs : List PolicyOutput)
    (hnodup : (c.nodes.map (fun n => n.id)).Nodup) (n : CNode) (hn : n ∈ c.nodes)
    (h : n.data.outputId ∈ newOutputs.map (fun o => o.id)) :
    n.id ∉ nodeIdsToRemoveOf c policyNodeId policyNode newOutputs := by
  intro hmem
  rcases removed_node_pred c policyNodeId policyNode newOutputs _ hmem with
    ⟨r, hrmem, hrid, _, _, hrnot⟩
  have : r = n := List.inj_on_of_nodup_map hnodup hrmem hn hrid
  rw [this] at hrnot
  exact hrnot h

lemma filter_and_congr {α : Type} (p q : α → Bool) (l : List α)
    (h : ∀ x ∈ l, p x = true → q x = true) :
    l.filter (fun a => p a && q a) = l.filter p := by
  apply List.filter_congr
  intro x hx
  cases hp : p x
  · simp
  · simp [h x hx hp]

lemma count_new_children (c : Canvas) (policyNodeId : String)
    (newOutputs : List PolicyOutput) (policyNode : CNode)
    (hfind : c.nodes.find? (fun n => n.id = policyNodeId) = some policyNode)
    (htype : policyNode.type = "policy")
    (hnodup : (c.nodes.map (fun n => n.id)).Nodup)
    (hnodupNew : (newOutputs.map (fun o => o.id)).Nodup)
    (o : PolicyOutput) (ho : o ∈ newOutputs)
    (honew : o.id ∉ policyNode.data.outputs.map (fun o2 => o2.id)) :
    ((handleOutputsChange c policyNodeId newOutputs).nodes.filter (fun m =>
      m.type = "policyOutput" ∧ m.data.parentPolicyId = policyNodeId ∧
        m.data.outputId = o.id)).length =
    (c.nodes.filter (fun m =>
      m.type = "policyOutput" ∧ m.data.parentPolicyId = policyNodeId ∧
        m.data.outputId = o.id)).length + 1 := by
  rw [handleOutputsChange_unfold c policyNodeId newOutputs policyNode hfind htype]
  dsimp only
  rw [List.filter_append, List.length_append]
  have h1 : (((c.nodes.filter (fun n =>
      n.id ∉ nodeIdsToRemoveOf c policyNodeId policyNode newOutputs)).map
        (updatedNodeOf c policyNodeId policyNode newOutputs)).filter (fun m =>
      m.type = "policyOutput" ∧ m.data.parentPolicyId = policyNodeId ∧
        m.data.outputId = o.id)).length =
      (c.nodes.filter (fun m =>
        m.type = "policyOutput" ∧ m.data.parentPolicyId = policyNodeId ∧
          m.data.outputId = o.id)).length := by
    rw [List.filter_map, List.length_map]
    rw [List.filter_congr (q := fun m =>
      m.type = "policyOutput" ∧ m.data.parentPolicyId = policyNodeId ∧
        m.data.outputId = o.id)
      (fun x hx => by
        simp only [Function.comp]
        have h := updatedNodeOf_preserves c policyNodeId policyNode newOutputs x
        rw [h.2.1, h.2.2.1, h.2.2.2.1])]
    rw [List.filter_filter]
    rw [filter_and_congr _ _ _ (fun x hx hp => by
      simp only [Bool.and_eq_true, decide_eq_true_eq] at hp
      refine decide_eq_true ?_
      exact surviving_child_not_removed c policyNodeId policyNode newOutputs
        hnodup x hx (hp.2.2 ▸ List.mem_map.2 ⟨o, ho, rfl⟩))]
  have h2 : ((newOutputNodesOf c policyNodeId policyNode newOutputs).filter (fun m =>
      m.type = "policyOutput" ∧ m.data.parentPolicyId = policyNodeId ∧
        m.data.outputId = o.id)).length = 1 := by
    unfold newOutputNodesOf
    rw [List.filter_map, List.length_map]
    rw [List.filter_congr (q := fun p => decide (p.2.id = o.id))
      (fun x hx => by
        simp only [Function.comp]
        simp)]
    have hlen := length_filter_enumFrom (fun a => decide (a.id = o.id))
      (addedOutputsOf policyNode newOutputs) 0
    rw [show (addedOutputsOf policyNode newOutputs).enum =
      (addedOutputsOf policyNode newOutputs).enumFrom 0 from rfl]
    rw [hlen]
    unfold addedOutputsOf
    rw [List.filter_filter]
    rw [filter_and_congr _ _ _ (fun x hx hp => by
      rw [decide_eq_true_eq] at hp
      refine decide_eq_true ?_
      simp only [existingOutputIdsOf]
      rw [hp]
      exact honew)]
    rw [filter_eq_singleton_of_nodup (fun o2 => o2.id) newOutputs hnodupNew o ho]
    rfl
  rw [h1, h2]

/-- C8: structural sync diff semantics of applyOutputsChange.  For a
Policy node P (with duplicate-free node ids, duplicate-free output ids and
a generator counter ahead of every existing node id): each output id
present in the old list but absent from the new one has its PolicyOutput
node deleted together with every edge incident to it; each output id
present in the new list but absent from the old one gains exactly one new
PolicyOutput node bound to it and carrying its label; each surviving
output id's PolicyOutput node keeps its node identity and position and
receives the new label; and P's outputNodeIds become exactly the surviving
child ids followed by the newly created ids, in order, one per added
output. -/
theorem C8_outputs_change_diff (c : Canvas) (policyNodeId : String)
    (newOutputs : List PolicyOutput) (policyNode : CNode)
    (hfind : c.nodes.find? (fun n => n.id = policyNodeId) = some policyNode)
    (htype : policyNode.type = "policy")
    (hnodup : (c.nodes.map (fun n => n.id)).Nodup)
    (hnodupNew : (newOutputs.map (fun o => o.id)).Nodup)
    (hfresh : ∀ n ∈ c.nodes, ∀ k, k < newOutputs.length →
      n.id ≠ "node_" ++ toString (c.nextId + k)) :
    (∀ n ∈ c.nodes, n.type = "policyOutput" →
      n.data.parentPolicyId = policyNodeId →
      n.data.outputId ∈ policyNode.data.outputs.map (fun o => o.id) →
      n.data.outputId ∉ newOutputs.map (fun o => o.id) →
      ∀ m ∈ (handleOutputsChange c policyNodeId newOutputs).nodes, m.id ≠ n.id) ∧
    (∀ n ∈ c.nodes, n.type = "policyOutput" →
      n.data.parentPolicyId = policyNodeId →
      n.data.outputId ∈ policyNode.data.outputs.map (fun o => o.id) →
      n.data.outputId ∉ newOutputs.map (fun o => o.id) →
      ∀ e ∈ c.edges, e.source = n.id ∨ e.target = n.id →
        e ∉ (handleOutputsChange c policyNodeId newOutputs).edges) ∧
    (∀ o ∈ newOutputs, o.id ∉ policyNode.data.outputs.map (fun o2 => o2.id) →
      ((handleOutputsChange c policyNodeId newOutputs).nodes.filter (fun m =>
        m.type = "policyOutput" ∧ m.data.parentPolicyId = policyNodeId ∧
          m.data.outputId = o.id)).length =
        (c.nodes.filter (fun m =>
          m.type = "policyOutput" ∧ m.data.parentPolicyId = policyNodeId ∧
            m.data.outputId = o.id)).length + 1 ∧
      (∀ m ∈ (handleOutputsChange c policyNodeId newOutputs).nodes,
        m.type = "policyOutput" → m.data.parentPolicyId = policyNodeId →
        m.data.outputId = o.id → m.id ∉ c.nodes.map (fun n => n.id) →
        m.data.label = o.label)) ∧
    (∀ n ∈ c.nodes, n.type = "policyOutput" →
      n.data.parentPolicyId = policyNodeId →
      ∀ o ∈ newOutputs, o.id = n.data.outputId →
      ∃ m ∈ (handleOutputsChange c policyNodeId newOutputs).nodes,
        m.id = n.id ∧ m.type = "policyOutput" ∧
        m.data.parentPolicyId = policyNodeId ∧
        m.data.outputId = n.data.outputId ∧
        m.data.label = o.label ∧ m.position = n.position) ∧
    (∃ m ∈ (handleOutputsChange c policyNodeId newOutputs).nodes,
      m.id = policyNodeId ∧ m.data.outputs = newOutputs ∧
      ∃ created : List CNode,
        m.data.outputNodeIds =
          (policyNode.data.outputNodeIds.filter (fun i =>
            i ∉ (outputNodesToRemoveOf c policyNodeId policyNode newOutputs).map
              (fun n => n.id))) ++ created.map (fun m2 => m2.id) ∧
        List.Forall₂ (fun (o : PolicyOutput) (m2 : CNode) =>
          m2 ∈ (handleOutputsChange c policyNodeId newOutputs).nodes ∧
          m2.type = "policyOutput" ∧ m2.data.parentPolicyId = policyNodeId ∧
          m2.data.outputId = o.id ∧ m2.data.label = o.label)
          (newOutputs.filter (fun o =>
            o.id ∉ policyNode.data.outputs.map (fun o2 => o2.id))) created) := by
  have hpolmem : policyNode ∈ c.nodes := List.mem_of_find?_eq_some hfind
  have hpolid : policyNode.id = policyNodeId := by
    have := List.find?_some hfind
    simpa using this
  have hinj := List.inj_on_of_nodup_map hnodup
  have hunf := handleOutputsChange_unfold c policyNodeId newOutputs policyNode
    hfind htype
  refine ⟨?_, ?_, ?_, ?_, ?_⟩
  · -- (a) removed children are gone
    intro n hn h1 h2 h3 h4 m hm heq
    have hnrem := mem_nodeIdsToRemoveOf c policyNodeId policyNode newOutputs n
      hn h1 h2 h3 h4
    rw [hunf] at hm
    dsimp only at hm
    rcases List.mem_append.1 hm with hup | hnew
    · rcases List.mem_map.1 hup with ⟨x, hxf, rfl⟩
      rcases List.mem_filter.1 hxf with ⟨hxmem, hxpred⟩
      have hid := (updatedNodeOf_preserves c policyNodeId policyNode newOutputs x).1
      rw [hid] at heq
      have hxn : x = n := hinj hxmem hn heq
      subst hxn
      rw [decide_eq_true_eq] at hxpred
      exact hxpred hnrem
    · rcases (newOutputNodesOf_shape c policyNodeId policyNode newOutputs m
        hnew).1 with ⟨k, hk, hmid⟩
      have hklen : k < newOutputs.length :=
        lt_of_lt_of_le hk (List.length_filter_le _ _)
      exact hfresh n hn k hklen (by rw [← heq, hmid])
  · -- (a') their incident edges are gone
    intro n hn h1 h2 h3 h4 e he hinc hmem
    have hnrem := mem_nodeIdsToRemoveOf c policyNodeId policyNode newOutputs n
      hn h1 h2 h3 h4
    have hcard : 0 < (nodeIdsToRemoveOf c policyNodeId policyNode newOutputs).card :=
      Finset.card_pos.2 ⟨n.id, hnrem⟩
    rw [hunf] at hmem
    dsimp only at hmem
    rw [if_pos hcard] at hmem
    rcases List.mem_filter.1 hmem with ⟨_, hpred⟩
    simp only [Bool.and_eq_true, decide_eq_true_eq] at hpred
    rcases hinc with h | h
    · exact hpred.1 (h ▸ hnrem)
    · exact hpred.2 (h ▸ hnrem)
  · -- (b) exactly one new child per added output
    intro o ho honew
    refine ⟨count_new_children c policyNodeId newOutputs policyNode hfind htype
      hnodup hnodupNew o ho honew, ?_⟩
    intro m hm hmt hmp hmo hmfresh
    rw [hunf] at hm
    dsimp only at hm
    rcases List.mem_append.1 hm with hup | hnew
    · rcases List.mem_map.1 hup with ⟨x, hxf, rfl⟩
      rcases List.mem_filter.1 hxf with ⟨hxmem, _⟩
      have hid := (updatedNodeOf_preserves c policyNodeId policyNode newOutputs x).1
      exact absurd (List.mem_map.2 ⟨x, hxmem, hid.symm⟩) (fun hc => hmfresh hc)
    · rcases (newOutputNodesOf_shape c policyNodeId policyNode newOutputs m
        hnew).2.2.2 with ⟨a, ha, haid, halab⟩
      have hamem : a ∈ newOutputs := List.mem_of_mem_filter ha
      have haeq : a = o := List.inj_on_of_nodup_map hnodupNew hamem ho
        (by rw [← haid, hmo])
      rw [halab, haeq]
  · -- (c) surviving children keep identity and take the new label
    intro n hn h1 h2 o ho hoid
    have hsurv : n.id ∉ nodeIdsToRemoveOf c policyNodeId policyNode newOutputs :=
      surviving_child_not_removed c policyNodeId policyNode newOutputs hnodup n hn
        (hoid ▸ List.mem_map.2 ⟨o, ho, rfl⟩)
    have hnid : n.id ≠ policyNodeId := by
      intro hc
      have : n = policyNode := hinj hn hpolmem (by rw [hc, hpolid])
      rw [this, htype] at h1
      exact absurd h1 (by decide)
    have hfo : newOutputs.find? (fun o2 => o2.id = n.data.outputId) = some o := by
      cases hfo2 : newOutputs.find? (fun o2 => o2.id = n.data.outputId) with
      | none =>
        exfalso
        exact absurd (decide_eq_true hoid)
          (List.find?_eq_none.1 hfo2 o ho)
      | some o0 =>
        have ho0mem := List.mem_of_find?_eq_some hfo2
        have ho0id := List.find?_some hfo2
        rw [decide_eq_true_eq] at ho0id
        have : o0 = o := List.inj_on_of_nodup_map hnodupNew ho0mem ho
          (by rw [ho0id, hoid])
        rw [this]
    refine ⟨updatedNodeOf c policyNodeId policyNode newOutputs n, ?_, ?_⟩
    · rw [hunf]
      dsimp only
      exact List.mem_append_left _
        (List.mem_map.2 ⟨n, List.mem_filter.2 ⟨hn, decide_eq_true hsurv⟩, rfl⟩)
    · have hpres := updatedNodeOf_preserves c policyNodeId policyNode newOutputs n
      refine ⟨hpres.1, hpres.2.1 ▸ h1, hpres.2.2.1 ▸ h2, hpres.2.2.2.1, ?_,
        hpres.2.2.2.2⟩
      unfold updatedNodeOf
      rw [if_neg hnid, if_pos ⟨h1, h2⟩, hfo]
      dsimp only
      split
      · rfl
      · rename_i hlab
        rw [not_not] at hlab
        rw [hlab]
  · -- (d) the policy node's bookkeeping
    have hpolsurv : policyNode.id ∉
        nodeIdsToRemoveOf c policyNodeId policyNode newOutputs :=
      policy_not_removed c policyNodeId policyNode newOutputs hnodup hpolmem htype
    refine ⟨updatedNodeOf c policyNodeId policyNode newOutputs policyNode, ?_,
      ?_, ?_⟩
    · rw [hunf]
      dsimp only
      exact List.mem_append_left _
        (List.mem_map.2 ⟨policyNode,
          List.mem_filter.2 ⟨hpolmem, decide_eq_true hpolsurv⟩, rfl⟩)
    · rw [(updatedNodeOf_preserves c policyNodeId policyNode newOutputs
        policyNode).1]
      exact hpolid
    · unfold updatedNodeOf
      rw [if_pos hpolid]
      refine ⟨rfl, newOutputNodesOf c policyNodeId policyNode newOutputs, ?_, ?_⟩
      · dsimp only
        congr 1
        apply List.filter_congr
        intro x hx
        rw [decide_eq_decide]
        rw [nodeIdsToRemoveOf, List.mem_toFinset]
      · apply forall₂_enumFrom_map (l := addedOutputsOf policyNode newOutputs)
          (k := 0)
        intro p hp
        have hmem : (newOutputNodesOf c policyNodeId policyNode newOutputs).length >
            0 → True := fun _ => trivial
        refine ⟨?_, rfl, rfl, rfl, rfl⟩
        rw [hunf]
        dsimp only
        exact List.mem_append_right _ (List.mem_map.2 ⟨p, hp, rfl⟩)

theorem C8_outputs_change_diff_witness :
    cC8.nodes.find? (fun n => n.id = "p") = some pC8 ∧
    pC8.type = "policy" ∧
    (cC8.nodes.map (fun n => n.id)).Nodup ∧
    (newOutsC8.map (fun o => o.id)).Nodup ∧
    (∀ n ∈ cC8.nodes, ∀ k, k < newOutsC8.length →
      n.id ≠ "node_" ++ toString (cC8.nextId + k)) ∧
    (∀ m ∈ (handleOutputsChange cC8 "p" newOutsC8).nodes, m.id ≠ "o2") ∧
    ({ id := "e2", source := "o2", target := "x" } : WEdge) ∉
      (handleOutputsChange cC8 "p" newOutsC8).edges ∧
    ((handleOutputsChange cC8 "p" newOutsC8).nodes.filter (fun m =>
      m.type = "policyOutput" ∧ m.data.parentPolicyId = "p" ∧
        m.data.outputId = "maybe")).length =
      (cC8.nodes.filter (fun m =>
        m.type = "policyOutput" ∧ m.data.parentPolicyId = "p" ∧
          m.data.outputId = "maybe")).length + 1 ∧
    (∃ m ∈ (handleOutputsChange cC8 "p" newOutsC8).nodes,
      m.id = "o1" ∧ m.type = "policyOutput" ∧ m.data.parentPolicyId = "p" ∧
      m.data.outputId = "yes" ∧ m.data.label = "Yes" ∧
      m.position = ({ x := 180, y := -30 } : Pos)) := by
  have h := C8_outputs_change_diff cC8 "p" newOutsC8 pC8 rfl rfl
    (by decide) (by decide) (by decide)
  refine ⟨rfl, rfl, by decide, by decide, by decide, ?_, ?_, ?_, ?_⟩
  · exact h.1 o2C8 (by decide) rfl rfl (by decide) (by decide)
  · exact h.2.1 o2C8 (by decide) rfl rfl (by decide) (by decide)
      { id := "e2", source := "o2", target := "x" } (by decide) (Or.inl rfl)
  · exact (h.2.2.1 { id := "maybe", label := "Maybe" } (by decide) (by decide)).1
  · exact h.2.2.2.1 o1C8 (by decide) rfl rfl
      { id := "yes", label := "Yes" } (by decide) rfl
